import Mathlib

/-!
Verification development for the MCP chatbot backend
(`backend/models/mcp.py`, `backend/services/mcp_client.py`,
`backend/services/mcp_client_manager.py`, `backend/services/mcp_config_manager.py`,
`backend/services/chat_service.py`).

The Python code is shallowly embedded: JSON/Python values become the inductive
`PyValue`; Python dicts become association lists (insertion order preserved, as
in CPython); pydantic models become structures together with explicit
validation functions returning `Except`; network I/O performed by a call is
abstracted into an oracle argument describing the outcome of that one remote
exchange; `async` methods that mutate the manager become pure state
transformers.  Exceptions are modelled with `Except String`.
-/

/-- A Python/JSON value as produced by `json.loads` plus booleans and floats.
`float` carries a rational approximation (no claim below depends on float
arithmetic, only on `isinstance` checks). -/
inductive PyValue where
  | none
  | str (s : String)
  | int (n : Int)
  | float (q : Rat)
  | bool (b : Bool)
  | list (xs : List PyValue)
  | dict (xs : List (String × PyValue))

/-- `True` iff the value is Python `None`. -/
def PyValue.isNone : PyValue → Bool
  | .none => true
  | _ => false

/-- Python truthiness of a JSON-decoded value. -/
def PyValue.truthy : PyValue → Bool
  | .none => false
  | .str s => s ≠ ""
  | .int n => n ≠ 0
  | .float q => q ≠ 0
  | .bool b => b
  | .list xs => ¬ xs.isEmpty
  | .dict xs => ¬ xs.isEmpty

/-- A rendering of a Python value as `str()` would produce.  Container
renderings are approximate; no control flow in the embedded code depends on
them, they only appear inside diagnostic message strings. -/
def PyValue.pyRepr : PyValue → String
  | .none => "None"
  | .str s => s
  | .int n => toString n
  | .float q => toString q
  | .bool b => if b then "True" else "False"
  | .list _ => "[...]"
  | .dict _ => "..."

/-- Association-list lookup, first binding wins (Python `dict` access;
keys are unique in a real dict, the first-wins convention matches). -/
def alookup {κ β : Type} [DecidableEq κ] : List (κ × β) → κ → Option β
  | [], _ => Option.none
  | (k, v) :: rest, key => if k = key then some v else alookup rest key

/-- Python `d[key] = v`: replace the existing binding in place, else append. -/
def aupdate {κ β : Type} [DecidableEq κ] : List (κ × β) → κ → β → List (κ × β)
  | [], key, v => [(key, v)]
  | (k, w) :: rest, key, v =>
      if k = key then (key, v) :: rest else (k, w) :: aupdate rest key v

/-- Python `d.pop(key, None)`: drop every binding of `key`. -/
def aerase {κ β : Type} [DecidableEq κ] (l : List (κ × β)) (key : κ) : List (κ × β) :=
  l.filter (fun p => p.1 ≠ key)

/-- The keys of an association list. -/
def akeys {κ β : Type} (l : List (κ × β)) : List κ := l.map Prod.fst

/-- Python `dict.get(key, default)`. -/
def alookupD {κ β : Type} [DecidableEq κ] (l : List (κ × β)) (key : κ) (d : β) : β :=
  (alookup l key).getD d

/-- Python set `add`: no duplicate membership. -/
def sinsert (name : String) (l : List String) : List String :=
  if name ∈ l then l else name :: l

/-- Python set `discard`. -/
def sdiscard (l : List String) (name : String) : List String :=
  l.filter (fun x => x ≠ name)

/-- Python `str.strip()` (kernel-reducible; ASCII whitespace, which is all the
embedded strings ever contain). -/
def pyStrip (s : String) : String :=
  String.mk (((s.data.dropWhile Char.isWhitespace).reverse.dropWhile Char.isWhitespace).reverse)

/-- ASCII lower-casing of one character. -/
def pyLowerChar (c : Char) : Char :=
  if 'A' ≤ c ∧ c ≤ 'Z' then Char.ofNat (c.toNat + 32) else c

/-- Python `str.lower()` (ASCII; every string compared after lowering in the
embedded code is ASCII). -/
def pyLower (s : String) : String := String.mk (s.data.map pyLowerChar)

/-- Python `str.replace(ch, '')` for a single-character pattern. -/
def pyRemoveChar (ch : Char) (s : String) : String :=
  String.mk (s.data.filter (fun c => c ≠ ch))

/-- `needle` occurs as a contiguous substring of `hay`
(Python `needle in hay` on strings). -/
def strHasSub (hay needle : String) : Prop := needle.data <:+: hay.data

instance (hay needle : String) : Decidable (strHasSub hay needle) := by
  unfold strHasSub; infer_instance

/-! ## `backend/models/mcp.py` -/

/-- `MCPServerConfig` (`backend/models/mcp.py`), after pydantic validation:
`name` and `endpoint` are stored stripped.  `authentication` is an opaque
key/value map. -/
structure MCPServerConfigV where
  name : String
  endpoint : String
  authentication : List (String × PyValue) := []
  available_tools : List String := []
  enabled : Bool := true
  timeout : Int := 30
  max_retries : Int := 3

/-- `MCPToolCall` (`backend/models/mcp.py`).  In Python `result` is
`Optional[Any]` defaulting to `None`: a "cleared"/absent result and a result
whose payload is the JSON value `null` are the same field state, so the field
is a plain `PyValue` with `PyValue.none` for the absent state.  `error` is
`Optional[str]`.  The `id`/`timestamp` fields play no role in any claim and are
omitted. -/
structure MCPToolCall where
  server_name : String
  tool_name : String
  parameters : List (String × PyValue) := []
  result : PyValue := .none
  error : Option String := Option.none
  execution_time : Rat := 0
  status : String := "pending"

/-- `MCPToolCall.mark_success`. -/
def markSuccess (result : PyValue) (execution_time : Rat) (tc : MCPToolCall) : MCPToolCall :=
  { tc with result := result, execution_time := execution_time,
            status := "success", error := Option.none }

/-- `MCPToolCall.mark_error`. -/
def markErrorCall (error_message : String) (execution_time : Rat) (tc : MCPToolCall) : MCPToolCall :=
  { tc with error := some error_message, execution_time := execution_time,
            status := "error", result := .none }

/-- `MCPToolCall.mark_timeout`. -/
def markTimeoutCall (execution_time : Rat) (tc : MCPToolCall) : MCPToolCall :=
  { tc with error := some "Tool call timed out", execution_time := execution_time,
            status := "timeout", result := .none }

/-- Constructing `MCPToolCall(server_name=…, tool_name=…, parameters=…)`:
the pydantic validator `validate_names` rejects a missing/non-string name and a
name that is empty after stripping, and stores the stripped name.  `.error` is
a raised `ValidationError`. -/
def mkToolCallE (server_name tool_name : Option String)
    (parameters : List (String × PyValue)) : Except String MCPToolCall :=
  match server_name, tool_name with
  | some s, some t =>
      if pyStrip s = "" then .error "server_name and tool_name cannot be empty"
      else if pyStrip t = "" then .error "server_name and tool_name cannot be empty"
      else .ok { server_name := pyStrip s, tool_name := pyStrip t, parameters := parameters }
  | _, _ => .error "Input should be a valid string"

/-- One terminal-marking operation, as invoked by the code's call paths. -/
inductive MarkOp where
  | success (result : PyValue) (t : Rat)
  | error (msg : String) (t : Rat)
  | timeout (t : Rat)

/-- Apply a marking operation. -/
def applyMark : MarkOp → MCPToolCall → MCPToolCall
  | .success r t, tc => markSuccess r t tc
  | .error m t, tc => markErrorCall m t tc
  | .timeout t, tc => markTimeoutCall t tc

/-- `validate_status`: the four admissible status strings. -/
def statusValid (s : String) : Bool :=
  s == "pending" || s == "success" || s == "error" || s == "timeout"

/-- A terminal status. -/
def isTerminalStatus (s : String) : Bool :=
  s == "success" || s == "error" || s == "timeout"

/-- The `result` field is populated (not Python `None`). -/
def resultPresent (tc : MCPToolCall) : Bool := !tc.result.isNone

/-- The `error` field is populated with a non-empty message. -/
def errorPresent (tc : MCPToolCall) : Bool :=
  match tc.error with
  | some m => m != ""
  | Option.none => false

/-- Exactly one of `result`/`error` is populated. -/
def exactlyOnePresent (tc : MCPToolCall) : Bool :=
  (resultPresent tc && !errorPresent tc) || (errorPresent tc && !resultPresent tc)

/-! ## `backend/services/mcp_client.py` — the Protocol Client -/

/-- A tool descriptor as returned by `tools/list` and cached in
`available_tools` — a dict with keys `name`, `description`, `inputSchema`.
A property schema is `{type?, enum?}`; `type` is absent when the dict has no
`type` key.  `inputSchema := Option.none` models both a missing `inputSchema`
key and an empty (falsy) schema dict — `_validate_tool_parameters` treats the
two identically (`tool_def.get('inputSchema', {})` followed by
`if not input_schema`). -/
structure PropDef where
  type : Option String := Option.none
  enum : Option (List PyValue) := Option.none

/-- The JSON-Schema-like object: `properties` and `required`. -/
structure InputSchema where
  properties : List (String × PropDef) := []
  required : List String := []

/-- One cached tool dict.  `name` is `tool.get('name')` — absent keys give
Python `None`, which the code compares with `==` against the requested tool
name. -/
structure ToolDef where
  name : Option String := Option.none
  description : String := ""
  inputSchema : Option InputSchema := Option.none

/-- `MCPProtocolClient` connection state: the `websocket`/`session` fields are
`true` when the corresponding transport handle is non-`None`. -/
structure MCPProtocolClient where
  config : MCPServerConfigV
  is_connected : Bool := false
  connection_type : Option String := Option.none
  websocket : Bool := false
  session : Bool := false
  available_tools : List ToolDef := []

/-- The outcome of the one JSON-RPC exchange a `tools/call` performs: a decoded
response dict, a timeout (`MCPTimeoutError`/`asyncio.TimeoutError`), or some
other exception raised while sending; `elapsed` is the wall-clock time the
exchange took. -/
inductive NetOutcome where
  | reply (response : List (String × PyValue)) (elapsed : Rat)
  | timeout (elapsed : Rat)
  | exn (msg : String) (elapsed : Rat)

/-- `MCPProtocolClient.call_tool` (`mcp_client.py` lines 221-267).  The
`MCPToolCall(...)` construction happens before the `try` block, so a pydantic
`ValidationError` (blank name) escapes as an exception (`.error`).  After that
every branch returns a terminally marked call: not connected → `error`;
RPC-level error object → `error`; timeout → `timeout`; other exception →
`error`; otherwise `success` with `response.get("result", {})`. -/
def MCPProtocolClient.call_tool (c : MCPProtocolClient) (net : NetOutcome)
    (tool_name : Option String) (parameters : List (String × PyValue)) :
    Except String MCPToolCall :=
  match mkToolCallE (some c.config.name) tool_name parameters with
  | .error e => .error e
  | .ok tc =>
    if ¬ c.is_connected then .ok (markErrorCall "Not connected to MCP server" 0 tc)
    else
      match net with
      | .reply response elapsed =>
          let errVal := alookupD response "error" PyValue.none
          if errVal.truthy then .ok (markErrorCall errVal.pyRepr elapsed tc)
          else .ok (markSuccess (alookupD response "result" (PyValue.dict [])) elapsed tc)
      | .timeout elapsed => .ok (markTimeoutCall elapsed tc)
      | .exn m elapsed => .ok (markErrorCall m elapsed tc)

/-- `MCPProtocolClient.disconnect` (`mcp_client.py` lines 165-181).  The whole
body sits in one `try` whose `except` only logs, so the method itself never
raises; `wsCloseRaises`/`sessionCloseRaises` say whether the corresponding
`close()` coroutine raises.  A raising close aborts the remaining statements of
the `try` block, leaving every not-yet-executed reset unapplied. -/
def MCPProtocolClient.disconnect (c : MCPProtocolClient)
    (wsCloseRaises sessionCloseRaises : Bool) : MCPProtocolClient :=
  if c.websocket then
    if wsCloseRaises then c
    else
      let c1 : MCPProtocolClient := { c with websocket := false }
      if c1.session then
        if sessionCloseRaises then c1
        else { c1 with session := false, is_connected := false, connection_type := Option.none }
      else { c1 with is_connected := false, connection_type := Option.none }
  else
    if c.session then
      if sessionCloseRaises then c
      else { c with session := false, is_connected := false, connection_type := Option.none }
    else { c with is_connected := false, connection_type := Option.none }

/-! ## `backend/services/mcp_client_manager.py` — the Client Orchestrator -/

/-- `MCPClientManager` aggregate state: the configuration store's `servers`
dict, the `clients` dict, the `connected_servers` set and the `available_tools`
cache. -/
structure MCPClientManager where
  config_servers : List (String × MCPServerConfigV) := []
  clients : List (String × MCPProtocolClient) := []
  connected_servers : List String := []
  available_tools : List (String × List ToolDef) := []

/-- `f"{x}"` of an optional name (`None` renders as `"None"`). -/
def optNameRepr : Option String → String
  | some s => s
  | Option.none => "None"

/-- `server_name in self.connected_servers` for a possibly-`None` name. -/
def optNameMem (o : Option String) (l : List String) : Bool :=
  match o with
  | some s => s ∈ l
  | Option.none => false

/-- The first tool dict whose `get('name')` equals the requested name
(`_validate_tool_parameters` lines 384-388). -/
def findToolDef (tools : List ToolDef) (tool_name : Option String) : Option ToolDef :=
  tools.find? (fun td => td.name == tool_name)

/-- `_validate_parameter_type` (`mcp_client_manager.py` lines 416-431):
`isinstance` against the JSON-schema type.  Python `bool` is a subclass of
`int`, so a boolean satisfies `integer` and `number`; an unknown type string
skips validation. -/
def validate_parameter_type (v : PyValue) (expected : String) : Bool :=
  if expected = "string" then (match v with | .str _ => true | _ => false)
  else if expected = "number" then
    (match v with | .int _ => true | .float _ => true | .bool _ => true | _ => false)
  else if expected = "integer" then
    (match v with | .int _ => true | .bool _ => true | _ => false)
  else if expected = "boolean" then (match v with | .bool _ => true | _ => false)
  else if expected = "array" then (match v with | .list _ => true | _ => false)
  else if expected = "object" then (match v with | .dict _ => true | _ => false)
  else true

/-- The first entry of `required` absent from the supplied parameters. -/
def firstMissingRequired (required : List String) (parameters : List (String × PyValue)) :
    Option String :=
  required.find? (fun r => r ∉ akeys parameters)

/-- The first supplied parameter that is declared with a truthy `type` it does
not satisfy; returns the parameter name and the declared type. -/
def firstTypeMismatch (props : List (String × PropDef)) :
    List (String × PyValue) → Option (String × String)
  | [] => Option.none
  | (n, v) :: rest =>
      match alookup props n with
      | some pd =>
          match pd.type with
          | some ty =>
              if ty ≠ "" ∧ ¬ validate_parameter_type v ty then some (n, ty)
              else firstTypeMismatch props rest
          | Option.none => firstTypeMismatch props rest
      | Option.none => firstTypeMismatch props rest

/-- `_validate_tool_parameters` (`mcp_client_manager.py` lines 369-414):
`None` for valid, else the error message. -/
def validate_tool_parameters (mgr : MCPClientManager) (server_name tool_name : Option String)
    (parameters : List (String × PyValue)) : Option String :=
  let server_tools :=
    match server_name with
    | some s => alookupD mgr.available_tools s []
    | Option.none => []
  match findToolDef server_tools tool_name with
  | Option.none =>
      some ("Tool '" ++ optNameRepr tool_name ++ "' not found on server '" ++
        optNameRepr server_name ++ "'")
  | some td =>
    match td.inputSchema with
    | Option.none => Option.none
    | some schema =>
      match firstMissingRequired schema.required parameters with
      | some r => some ("Required parameter '" ++ r ++ "' is missing")
      | Option.none =>
        match firstTypeMismatch schema.properties parameters with
        | some (n, ty) =>
            some ("Parameter '" ++ n ++ "' has invalid type. Expected: " ++ ty)
        | Option.none => Option.none

/-- `MCPClientManager.call_tool` (`mcp_client_manager.py` lines 279-321).
The returned `Bool` is `true` iff the call was delegated to the Protocol
Client (i.e. a network exchange was attempted); the mocked call counter in the
repository's tests counts exactly these delegations. -/
def MCPClientManager.call_tool (mgr : MCPClientManager) (net : NetOutcome)
    (server_name tool_name : Option String) (parameters : List (String × PyValue)) :
    Except String MCPToolCall × Bool :=
  if ¬ optNameMem server_name mgr.connected_servers then
    ((mkToolCallE server_name tool_name parameters).map
      (markErrorCall ("Server '" ++ optNameRepr server_name ++ "' is not connected") 0), false)
  else
    match (match server_name with
           | some s => alookup mgr.clients s
           | Option.none => Option.none) with
    | Option.none =>
        ((mkToolCallE server_name tool_name parameters).map
          (markErrorCall ("Client for server '" ++ optNameRepr server_name ++ "' not found") 0),
         false)
    | some client =>
      match validate_tool_parameters mgr server_name tool_name parameters with
      | some verr =>
          ((mkToolCallE server_name tool_name parameters).map
            (markErrorCall ("Parameter validation failed: " ++ verr) 0), false)
      | Option.none => (client.call_tool net tool_name parameters, true)

/-- One entry of the `tool_calls` list passed to `call_tools_parallel`: a dict
read with `.get('server_name')`, `.get('tool_name')`, `.get('parameters', {})`.
A name key, when present, holds a string; an absent key gives Python `None`. -/
structure CallSpec where
  server_name : Option String := Option.none
  tool_name : Option String := Option.none
  parameters : List (String × PyValue) := []

/-- The per-task results of `asyncio.gather(*tasks, return_exceptions=True)`:
task `i` runs `call_tool` on spec `i` under its own network outcome `net i`,
and the gathered list is in task order with raised exceptions captured in
place. -/
def runTasks (mgr : MCPClientManager) (net : Nat → NetOutcome) :
    List CallSpec → List (CallSpec × Except String MCPToolCall)
  | [] => []
  | sp :: rest =>
      (sp, (mgr.call_tool (net 0) sp.server_name sp.tool_name sp.parameters).1) ::
        runTasks mgr (fun i => net (i + 1)) rest

/-- The exception-conversion loop of `call_tools_parallel` (lines 352-367): a
captured exception is replaced by a fresh error-status `MCPToolCall` built from
the original spec with `'unknown'` defaults.  That construction itself goes
through pydantic validation and can raise — uncaught, aborting the whole
batch. -/
def convertResults : List (CallSpec × Except String MCPToolCall) →
    Except String (List MCPToolCall)
  | [] => .ok []
  | (_, .ok tc) :: rest => (convertResults rest).map (tc :: ·)
  | (sp, .error e) :: rest =>
      match mkToolCallE (some (sp.server_name.getD "unknown"))
          (some (sp.tool_name.getD "unknown")) sp.parameters with
      | .ok tc0 =>
          (convertResults rest).map (markErrorCall ("Tool call failed: " ++ e) 0 tc0 :: ·)
      | .error e2 => .error e2

/-- `MCPClientManager.call_tools_parallel` (`mcp_client_manager.py`
lines 323-367). -/
def MCPClientManager.call_tools_parallel (mgr : MCPClientManager) (net : Nat → NetOutcome)
    (tool_calls : List CallSpec) : Except String (List MCPToolCall) :=
  if tool_calls.isEmpty then .ok []
  else convertResults (runTasks mgr net tool_calls)

/-- The outcome of one `client.connect()` as observed by the orchestrator:
`ok tools` — returned `True` having discovered `tools`; `failed` — returned
`False`; `raised` — raised (e.g. a cancellation, which `except Exception`
does not catch). -/
inductive ConnectOutcome where
  | ok (tools : List ToolDef)
  | failed
  | raised

/-- The client object's own state after its `connect()` attempt (the transport
details behind `connect` are folded into the outcome oracle). -/
def clientAfterConnect (c : MCPProtocolClient) : ConnectOutcome → MCPProtocolClient
  | .ok tools => { c with is_connected := true, available_tools := tools }
  | .failed => { c with is_connected := false }
  | .raised => { c with is_connected := false }

/-- `_connect_single_server` (`mcp_client_manager.py` lines 81-94): on success
the server name and its discovered tools are added to `connected_servers` and
`available_tools` together; a `False` return or an exception only logs. -/
def connect_single_server (mgr : MCPClientManager) (name : String) (out : ConnectOutcome) :
    MCPClientManager :=
  let mgr1 : MCPClientManager :=
    { mgr with clients :=
        match alookup mgr.clients name with
        | some c => aupdate mgr.clients name (clientAfterConnect c out)
        | Option.none => mgr.clients }
  match out with
  | .ok tools =>
      { mgr1 with connected_servers := sinsert name mgr1.connected_servers,
                  available_tools := aupdate mgr1.available_tools name tools }
  | .failed => mgr1
  | .raised => mgr1

/-- The fan-out of `_connect_single_server` tasks joined by `asyncio.gather`. -/
def connectLoop (co : String → ConnectOutcome) :
    List (String × MCPServerConfigV) → MCPClientManager → MCPClientManager
  | [], mgr => mgr
  | (name, _) :: rest, mgr => connectLoop co rest (connect_single_server mgr name (co name))

/-- A freshly constructed `MCPProtocolClient(server_config)`. -/
def freshClient (cfg : MCPServerConfigV) : MCPProtocolClient := { config := cfg }

/-- `connect_to_servers` (`mcp_client_manager.py` lines 60-79): for every
enabled configured server not already in `clients`, create a client, then run
all the `_connect_single_server` tasks. -/
def MCPClientManager.connect_to_servers (mgr : MCPClientManager)
    (co : String → ConnectOutcome) : MCPClientManager :=
  let enabled := mgr.config_servers.filter (fun p => p.2.enabled)
  let newOnes := enabled.filter (fun p => (alookup mgr.clients p.1).isNone)
  let mgr1 : MCPClientManager :=
    { mgr with clients := mgr.clients ++ newOnes.map (fun p => (p.1, freshClient p.2)) }
  connectLoop co newOnes mgr1

/-- `disconnect_from_servers` (`mcp_client_manager.py` lines 96-111): clears
`connected_servers`, `available_tools` and `clients` unconditionally. -/
def MCPClientManager.disconnect_from_servers (mgr : MCPClientManager) : MCPClientManager :=
  { mgr with connected_servers := [], available_tools := [], clients := [] }

/-- `reconnect_server` (`mcp_client_manager.py` lines 113-149).  The client's
`disconnect()` is invoked with non-raising closes; `out` is the subsequent
`connect()` outcome (an exception is caught and reported as `false`). -/
def MCPClientManager.reconnect_server (mgr : MCPClientManager) (server_name : String)
    (out : ConnectOutcome) : MCPClientManager × Bool :=
  match alookup mgr.clients server_name with
  | Option.none => (mgr, false)
  | some c =>
    let mgr1 : MCPClientManager :=
      if server_name ∈ mgr.connected_servers then
        { mgr with
            clients := aupdate mgr.clients server_name (c.disconnect false false),
            connected_servers := sdiscard mgr.connected_servers server_name,
            available_tools := aerase mgr.available_tools server_name }
      else mgr
    match out with
    | .ok tools =>
        ({ mgr1 with
             clients :=
               (match alookup mgr1.clients server_name with
                | some c1 => aupdate mgr1.clients server_name (clientAfterConnect c1 (.ok tools))
                | Option.none => mgr1.clients),
             connected_servers := sinsert server_name mgr1.connected_servers,
             available_tools := aupdate mgr1.available_tools server_name tools }, true)
    | .failed => (mgr1, false)
    | .raised => (mgr1, false)

/-- The outcome of one `client.health_check()`: `healthy`/`unhealthy` are the
boolean returns, `raised` an exception caught by the wrapper. -/
inductive HealthOutcome where
  | healthy
  | unhealthy
  | raised

/-- `_health_check_single_server` (`mcp_client_manager.py` lines 186-198): an
unhealthy server is evicted from `connected_servers` and `available_tools`
together; a healthy result or an exception leaves the aggregate state
untouched. -/
def health_check_single_server (mgr : MCPClientManager) (name : String) (h : HealthOutcome) :
    MCPClientManager :=
  match h with
  | .unhealthy =>
      { mgr with connected_servers := sdiscard mgr.connected_servers name,
                 available_tools := aerase mgr.available_tools name }
  | .healthy => mgr
  | .raised => mgr

/-- `health_check_servers` (`mcp_client_manager.py` lines 151-184): fan out a
health check for every currently connected server that has a client. -/
def MCPClientManager.health_check_servers (mgr : MCPClientManager)
    (ho : String → HealthOutcome) : MCPClientManager :=
  let names := mgr.connected_servers.filter (fun n => (alookup mgr.clients n).isSome)
  names.foldl (fun m n => health_check_single_server m n (ho n)) mgr

/-- The outcome of one `client.list_tools()` call. -/
inductive ListToolsOutcome where
  | ok (tools : List ToolDef)
  | raised (msg : String)

/-- `refresh_server_tools` (`mcp_client_manager.py` lines 479-503). -/
def MCPClientManager.refresh_server_tools (mgr : MCPClientManager) (server_name : String)
    (out : ListToolsOutcome) : MCPClientManager × Bool :=
  if server_name ∉ mgr.connected_servers then (mgr, false)
  else
    match alookup mgr.clients server_name with
    | Option.none => (mgr, false)
    | some _ =>
      match out with
      | .ok tools =>
          ({ mgr with available_tools := aupdate mgr.available_tools server_name tools }, true)
      | .raised _ => (mgr, false)

/-- The aggregate-state invariant of §3 of the design: `connected_servers` and
the key set of `available_tools` contain the same names. -/
def aggInv (mgr : MCPClientManager) : Prop :=
  ∀ n : String, n ∈ mgr.connected_servers ↔ n ∈ akeys mgr.available_tools

/-! ## `backend/services/mcp_config_manager.py` — the Configuration Store -/

/-- ASCII character classes used by the pydantic validators and the
chat-service heuristics (Python's `str` methods are Unicode-aware; every
string a claim below touches is ASCII). -/
def isUpperAZ (c : Char) : Bool := 'A' ≤ c ∧ c ≤ 'Z'

def isLowerAZ (c : Char) : Bool := 'a' ≤ c ∧ c ≤ 'z'

def isDigit09 (c : Char) : Bool := '0' ≤ c ∧ c ≤ '9'

def isAlnumChar (c : Char) : Bool := isUpperAZ c ∨ isLowerAZ c ∨ isDigit09 c

/-- Python `str.isalnum()`: non-empty and all alphanumeric. -/
def pyIsalnum (s : String) : Bool := s ≠ "" ∧ s.data.all isAlnumChar

/-- One raw `servers` array element, read with `MCPServerConfig(**server_data)`;
absent keys fall back to the pydantic field defaults, `name`/`endpoint` are
required.  (Keys of types other than the declared ones are not modelled: they
raise just like an absent required key, and no claim depends on them.) -/
structure RawServerEntry where
  name : Option String := Option.none
  endpoint : Option String := Option.none
  authentication : Option (List (String × PyValue)) := Option.none
  available_tools : Option (List String) := Option.none
  enabled : Option Bool := Option.none
  timeout : Option Int := Option.none
  max_retries : Option Int := Option.none

/-- The `validate_name` field validator of `MCPServerConfig`: non-blank, and
alphanumeric once hyphens/underscores are removed; returns the stripped name. -/
def validateServerName (v : String) : Except String String :=
  if pyStrip v = "" then .error "name cannot be empty"
  else if ¬ pyIsalnum (pyRemoveChar '_' (pyRemoveChar '-' v)) then
    .error "name must contain only alphanumeric characters, hyphens, and underscores"
  else .ok (pyStrip v)

/-- `MCPServerConfig(**server_data)`: run all field validators; `.error` is a
raised `ValidationError`. -/
def mkServerConfig (e : RawServerEntry) : Except String MCPServerConfigV :=
  match e.name, e.endpoint with
  | some nv, some ev =>
    (match validateServerName nv with
     | .error m => .error m
     | .ok n =>
       if pyStrip ev = "" then .error "endpoint cannot be empty"
       else
         let t := e.timeout.getD 30
         let mr := e.max_retries.getD 3
         if t ≤ 0 then .error "timeout must be positive"
         else if mr < 0 then .error "max_retries cannot be negative"
         else .ok { name := n, endpoint := pyStrip ev,
                    authentication := e.authentication.getD [],
                    available_tools := e.available_tools.getD [],
                    enabled := e.enabled.getD true, timeout := t, max_retries := mr })
  | _, _ => .error "Field required"

/-- The loop body of `_validate_and_load_servers` (`mcp_config_manager.py`
lines 65-86).  `self.servers` starts out reset to `{}` and is filled
incrementally; a `ValidationError` or a duplicate name raises
`MCPConfigurationError` out of the loop, with whatever was loaded so far left
in place.  Returns the final `servers` dict and the raised message, if any. -/
def loadServersLoop : Nat → List RawServerEntry → List (String × MCPServerConfigV) →
    List (String × MCPServerConfigV) × Option String
  | _, [], acc => (acc, Option.none)
  | i, e :: rest, acc =>
    match mkServerConfig e with
    | .error m =>
        (acc, some ("Invalid server configuration at index " ++ toString i ++ ": " ++ m))
    | .ok cfg =>
      if cfg.name ∈ akeys acc then
        (acc, some ("Error processing server configuration at index " ++ toString i ++
          ": Duplicate server name: " ++ cfg.name))
      else loadServersLoop (i + 1) rest (acc ++ [(cfg.name, cfg)])

/-- `_validate_and_load_servers` applied to the parsed `servers` array. -/
def validate_and_load_servers (entries : List RawServerEntry) :
    List (String × MCPServerConfigV) × Option String :=
  loadServersLoop 0 entries []

/-- Sequential validation of a list of raw entries (the successful prefix of a
load). -/
def mkServerConfigs : List RawServerEntry → Except String (List MCPServerConfigV)
  | [] => .ok []
  | e :: rest =>
    match mkServerConfig e with
    | .error m => .error m
    | .ok cfg => (mkServerConfigs rest).map (cfg :: ·)

/-!
Object identity for `get_all_servers`/`get_enabled_servers`
(`mcp_config_manager.py` lines 192-211): `self.servers.copy()` and the dict
comprehension both build a *new dict holding references to the same
`MCPServerConfig` objects*.  Python references are modelled as `Nat` keys into
an explicit heap of config objects; the store's `servers` dict maps names to
references.
-/

/-- The heap of live `MCPServerConfig` objects. -/
def ConfigHeap : Type := List (Nat × MCPServerConfigV)

/-- Dereference a config object. -/
def derefConfig (h : ConfigHeap) (r : Nat) : Option MCPServerConfigV := alookup h r

/-- `get_all_servers`: `self.servers.copy()` — a fresh dict with the same
name-to-reference bindings. -/
def get_all_servers (store : List (String × Nat)) : List (String × Nat) := store

/-- `get_enabled_servers`: the comprehension
`{name: config for … if config.enabled}` — again sharing references. -/
def get_enabled_servers (h : ConfigHeap) (store : List (String × Nat)) :
    List (String × Nat) :=
  store.filter (fun p => (derefConfig h p.2).elim false (·.enabled))

/-- `view[name].enabled = b`: in-place mutation of the referenced object. -/
def setEnabledRef : ConfigHeap → Nat → Bool → ConfigHeap
  | [], _, _ => []
  | (pr, pc) :: rest, r, b =>
      if pr = r then (pr, { pc with enabled := b }) :: setEnabledRef rest r b
      else (pr, pc) :: setEnabledRef rest r b

/-- The `enabled` flag the *store* observes for `name` through its own
`servers` dict. -/
def storeEnabled (h : ConfigHeap) (store : List (String × Nat)) (name : String) :
    Option Bool :=
  (alookup store name).bind (fun r => (derefConfig h r).map (·.enabled))

/-! ## `backend/services/chat_service.py` — parameter synthesis -/

/-- Greedy `[a-z]*`. -/
def takeLowers : List Char → List Char × List Char
  | [] => ([], [])
  | c :: rest =>
      if isLowerAZ c then
        let p := takeLowers rest
        (c :: p.1, p.2)
      else ([], c :: rest)

/-- `[A-Z][a-z]+` at the current position. -/
def matchCapWord : List Char → Option (List Char × List Char)
  | [] => Option.none
  | c :: rest =>
      if isUpperAZ c then
        match takeLowers rest with
        | ([], _) => Option.none
        | (ls, rem) => some (c :: ls, rem)
      else Option.none

/-- Greedy `(?: [A-Z][a-z]+)*`; each unit consumes at least two characters so
the input length is enough fuel. -/
def matchMoreWords : Nat → List Char → List Char × List Char
  | 0, s => ([], s)
  | fuel + 1, s =>
      match s with
      | ' ' :: rest =>
          match matchCapWord rest with
          | some (w, rem) =>
              let p := matchMoreWords fuel rem
              (' ' :: (w ++ p.1), p.2)
          | Option.none => ([], s)
      | _ => ([], s)

/-- Match a literal character sequence, returning the remainder. -/
def dropLit : List Char → List Char → Option (List Char)
  | [], s => some s
  | _ :: _, [] => Option.none
  | l :: ls, c :: cs => if c = l then dropLit ls cs else Option.none

/-- One attempt of `lit([A-Z][a-z]+(?: [A-Z][a-z]+)*)` anchored at the current
position; the group is greedy and nothing follows it, so no backtracking can
occur. -/
def tryLocHere (lit : List Char) (s : List Char) : Option String :=
  match dropLit lit s with
  | some rem =>
      match matchCapWord rem with
      | some (w, rem2) =>
          let p := matchMoreWords rem2.length rem2
          some (String.mk (w ++ p.1))
      | Option.none => Option.none
  | Option.none => Option.none

/-- `re.search`: leftmost position at which the pattern matches. -/
def searchLoc (lit : List Char) : List Char → Option String
  | [] => Option.none
  | c :: rest =>
      match tryLocHere lit (c :: rest) with
      | some l => some l
      | Option.none => searchLoc lit rest

/-- `_extract_location` (`chat_service.py` lines 245-259): the three patterns
`in …`, `at …`, `for …`, each searched over the whole message in order. -/
def extract_location (message : String) : Option String :=
  let cs := message.data
  match searchLoc "in ".data cs with
  | some l => some l
  | Option.none =>
    match searchLoc "at ".data cs with
    | some l => some l
    | Option.none => searchLoc "for ".data cs

/-- The conversation as seen by `_extract_location_from_conversation`: the
`content` strings of its messages, oldest first. -/
structure ConversationV where
  messages : List String := []

/-- The last `n` elements of a list (Python `l[-n:]`). -/
def lastN {α : Type} (n : Nat) (l : List α) : List α := l.drop (l.length - n)

/-- First message yielding a location. -/
def firstLocIn : List String → Option String
  | [] => Option.none
  | m :: rest =>
      match extract_location m with
      | some l => some l
      | Option.none => firstLocIn rest

/-- `_extract_location_from_conversation` (`chat_service.py` lines 261-274):
scan the last five messages, most recent first. -/
def extract_location_from_conversation (c : ConversationV) : Option String :=
  if c.messages.isEmpty then Option.none
  else firstLocIn (lastN 5 c.messages).reverse

/-- Greedy `\d+`. -/
def takeDigits : List Char → List Char × List Char
  | [] => ([], [])
  | c :: rest =>
      if isDigit09 c then
        let p := takeDigits rest
        (c :: p.1, p.2)
      else ([], c :: rest)

/-- Greedy `\s*` (ASCII whitespace; the day-count patterns only ever meet
ordinary spaces). -/
def dropSpacesWS : List Char → List Char
  | [] => []
  | c :: rest => if c.isWhitespace then dropSpacesWS rest else c :: rest

/-- The numeric value of a digit run (`int(match.group(1))`). -/
def natOfDigits (ds : List Char) : Nat :=
  ds.foldl (fun acc c => acc * 10 + (c.toNat - '0'.toNat)) 0

/-- Python `\w`. -/
def isWordChar (c : Char) : Bool := isAlnumChar c ∨ c = '_'

/-- `(\d+)\s*days?` at the current position — the trailing `s?` can always
match empty, so only `day` is required.  Greediness needs no backtracking: a
shorter digit run leaves a digit where `\s*day` must start, and fewer
whitespace characters leave whitespace where `d` must stand. -/
def tryDays1 (s : List Char) : Option Nat :=
  match takeDigits s with
  | ([], _) => Option.none
  | (ds, rem) =>
      match dropLit "day".data (dropSpacesWS rem) with
      | some _ => some (natOfDigits ds)
      | Option.none => Option.none

/-- `(\d+)-day` at the current position. -/
def tryDays2 (s : List Char) : Option Nat :=
  match takeDigits s with
  | ([], _) => Option.none
  | (ds, rem) =>
      match dropLit "-day".data rem with
      | some _ => some (natOfDigits ds)
      | Option.none => Option.none

/-- `(\d+)\s*d\b` at the current position. -/
def tryDays3 (s : List Char) : Option Nat :=
  match takeDigits s with
  | ([], _) => Option.none
  | (ds, rem) =>
      match dropLit "d".data (dropSpacesWS rem) with
      | some rem2 =>
          match rem2 with
          | [] => some (natOfDigits ds)
          | c :: _ => if isWordChar c then Option.none else some (natOfDigits ds)
      | Option.none => Option.none

/-- `re.search` for the day patterns: leftmost matching position. -/
def searchNat (tryAt : List Char → Option Nat) : List Char → Option Nat
  | [] => Option.none
  | c :: rest =>
      match tryAt (c :: rest) with
      | some n => some n
      | Option.none => searchNat tryAt rest

/-- `_extract_days_from_message` (`chat_service.py` lines 276-299): the three
regex patterns in order over the lowercased message, then the `tomorrow`/`week`
special cases. -/
def extract_days_from_message (message : String) : Option Nat :=
  let lower := pyLower message
  let cs := lower.data
  match searchNat tryDays1 cs with
  | some n => some n
  | Option.none =>
    match searchNat tryDays2 cs with
    | some n => some n
    | Option.none =>
      match searchNat tryDays3 cs with
      | some n => some n
      | Option.none =>
        if strHasSub lower "tomorrow" then some 1
        else if strHasSub lower "week" then some 7
        else Option.none

/-- Truthiness of an `Optional[str]`. -/
def strOptTruthy : Option String → Bool
  | some s => s ≠ ""
  | Option.none => false

/-- The `location`/`city` branch of `_generate_tool_parameters`: current
message first, then the conversation fallback, assigned only when truthy. -/
def locationFor (message : String) (conversation : Option ConversationV) : Option String :=
  let l0 := extract_location message
  let l1 :=
    if ¬ strOptTruthy l0 then
      match conversation with
      | some c => extract_location_from_conversation c
      | Option.none => l0
    else l0
  if strOptTruthy l1 then l1 else Option.none

/-- The per-property branch chain of `_generate_tool_parameters`
(`chat_service.py` lines 205-232).  Each iteration of the Python loop writes at
most the key `prop_name`, with a value depending only on the message, the
conversation and this property's name and schema — this function is that
value. -/
def branchAssign (message : String) (conversation : Option ConversationV)
    (prop_name : String) (pd : PropDef) : Option PyValue :=
  let nl := pyLower prop_name
  let prop_type := pd.type.getD "string"
  if nl = "query" ∨ nl = "q" ∨ nl = "search" ∨ nl = "term" then some (.str message)
  else if nl = "text" ∨ nl = "content" ∨ nl = "input" then some (.str message)
  else if nl = "location" ∨ nl = "city" then (locationFor message conversation).map PyValue.str
  else if (nl = "limit" ∨ nl = "count" ∨ nl = "max") ∧
      (prop_type = "integer" ∨ prop_type = "number") then some (.int 5)
  else if (nl = "format" ∨ nl = "type") ∧ pd.enum.isSome then
    match pd.enum with
    | some (v :: _) => some v
    | _ => Option.none
  else if nl = "days" ∧ (prop_type = "integer" ∨ prop_type = "number") then
    match extract_days_from_message message with
    | some n => if n ≠ 0 then some (.int n) else Option.none
    | Option.none => Option.none
  else Option.none

/-- The parameter dict built by the property loop, in insertion order. -/
def buildParams (message : String) (conversation : Option ConversationV) :
    List (String × PropDef) → List (String × PyValue)
  | [] => []
  | (n, pd) :: rest =>
      match branchAssign message conversation n pd with
      | some v => (n, v) :: buildParams message conversation rest
      | Option.none => buildParams message conversation rest

/-- `_generate_tool_parameters` (`chat_service.py` lines 186-243), including
the two fall-back assignments when the loop produced nothing. -/
def generate_tool_parameters (message : String) (tool : ToolDef)
    (conversation : Option ConversationV) : List (String × PyValue) :=
  let properties := (tool.inputSchema.map (·.properties)).getD []
  let params := buildParams message conversation properties
  if params.isEmpty ∧ "query" ∈ akeys properties then [("query", .str message)]
  else if params.isEmpty ∧ properties.length = 1 then
    match properties with
    | (n, _) :: _ => [(n, .str message)]
    | [] => params
  else params

/-- A name field of a call spec that, when present, is a non-blank,
already-stripped string (so pydantic accepts it verbatim). -/
def nameFieldOk (o : Option String) : Prop :=
  ∀ s : String, o = some s → (pyStrip s = s ∧ s ≠ "")

/-! ## Helper lemmas about the dict/set primitives -/

theorem mem_sinsert (x n : String) (l : List String) :
    x ∈ sinsert n l ↔ x = n ∨ x ∈ l := by
  unfold sinsert
  split
  · constructor
    · exact fun h => Or.inr h
    · rintro (rfl | h)
      · assumption
      · exact h
  · simp [List.mem_cons]

theorem mem_sdiscard (x n : String) (l : List String) :
    x ∈ sdiscard l n ↔ x ∈ l ∧ x ≠ n := by
  unfold sdiscard
  simp

theorem alookup_some_mem_akeys {κ β : Type} [DecidableEq κ] (l : List (κ × β)) (k : κ) (v : β)
    (h : alookup l k = some v) : k ∈ akeys l := by
  induction l with
  | nil => simp [alookup] at h
  | cons p rest ih =>
    obtain ⟨pk, pv⟩ := p
    by_cases hp : pk = k
    · simp [akeys, hp]
    · simp only [alookup, if_neg hp] at h
      simp only [akeys, List.map_cons, List.mem_cons]
      exact Or.inr (ih h)

theorem alookup_aupdate_self {κ β : Type} [DecidableEq κ] (l : List (κ × β)) (k : κ) (v : β) :
    alookup (aupdate l k v) k = some v := by
  induction l with
  | nil => simp [aupdate, alookup]
  | cons p rest ih =>
    obtain ⟨pk, pv⟩ := p
    by_cases hp : pk = k
    · simp [aupdate, hp, alookup]
    · simp only [aupdate, if_neg hp, alookup, if_neg hp]
      exact ih

theorem alookup_aupdate_ne {κ β : Type} [DecidableEq κ] (l : List (κ × β)) (k k' : κ) (v : β)
    (h : k' ≠ k) : alookup (aupdate l k v) k' = alookup l k' := by
  induction l with
  | nil =>
    simp only [aupdate, alookup]
    rw [if_neg (fun he => h he.symm)]
  | cons p rest ih =>
    obtain ⟨pk, pv⟩ := p
    by_cases hp : pk = k
    · subst hp
      simp only [aupdate, if_pos rfl, alookup]
      rw [if_neg (fun he => h he.symm), if_neg (fun he => h he.symm)]
    · simp only [aupdate, if_neg hp, alookup, ih]

theorem mem_akeys_aupdate {κ β : Type} [DecidableEq κ] (l : List (κ × β)) (k x : κ) (v : β) :
    x ∈ akeys (aupdate l k v) ↔ x = k ∨ x ∈ akeys l := by
  induction l with
  | nil => simp [aupdate, akeys]
  | cons p rest ih =>
    obtain ⟨pk, pv⟩ := p
    by_cases hp : pk = k
    · subst hp
      simp [aupdate, akeys]
    · simp only [aupdate, if_neg hp, akeys, List.map_cons, List.mem_cons] at *
      tauto

theorem mem_akeys_aerase {κ β : Type} [DecidableEq κ] (l : List (κ × β)) (k x : κ) :
    x ∈ akeys (aerase l k) ↔ x ∈ akeys l ∧ x ≠ k := by
  simp only [akeys, aerase, List.mem_map, List.mem_filter, decide_eq_true_eq]
  constructor
  · rintro ⟨a, ⟨ha, hne⟩, rfl⟩
    exact ⟨⟨a, ha, rfl⟩, hne⟩
  · rintro ⟨⟨a, ha, rfl⟩, hne⟩
    exact ⟨a, ⟨ha, hne⟩, rfl⟩

theorem alookup_filter_some {κ β : Type} [DecidableEq κ] (p : κ × β → Bool)
    (l : List (κ × β)) (k : κ) (v : β) (hnd : (akeys l).Nodup)
    (h : alookup (l.filter p) k = some v) : alookup l k = some v := by
  induction l with
  | nil => simp [alookup] at h
  | cons q rest ih =>
    obtain ⟨qk, qv⟩ := q
    simp only [akeys, List.map_cons, List.nodup_cons] at hnd
    by_cases hq : qk = k
    · subst hq
      by_cases hp : p (qk, qv)
      · simp only [List.filter_cons, hp, if_pos, alookup, if_pos rfl] at h
        simpa [alookup] using h
      · simp only [List.filter_cons, hp] at h
        have hmem := alookup_some_mem_akeys _ _ _ (ih hnd.2 h)
        exact absurd hmem hnd.1
    · by_cases hp : p (qk, qv)
      · simp only [List.filter_cons, hp, if_pos, alookup, if_neg hq] at h
        simp only [alookup, if_neg hq]
        exact ih hnd.2 h
      · simp only [List.filter_cons, hp] at h
        simp only [alookup, if_neg hq]
        exact ih hnd.2 h

/-! ## Claim C3 — Protocol Client `disconnect` -/

/-- Claim C3 counterexample: on a connected WebSocket client whose
`websocket.close()` raises, `disconnect()` (which catches the exception and
only logs) leaves `is_connected = true`, the transport handle set and
`connection_type` intact — the state is *not* fully reset, contradicting the
claim that the state is fully reset even if the underlying close raises. -/
theorem disconnect_raising_close_counterexample :
    (MCPProtocolClient.disconnect
      { config := { name := "srv", endpoint := "ws://localhost:1" },
        is_connected := true, connection_type := some "websocket",
        websocket := true } true false).is_connected = true ∧
    (MCPProtocolClient.disconnect
      { config := { name := "srv", endpoint := "ws://localhost:1" },
        is_connected := true, connection_type := some "websocket",
        websocket := true } true false).connection_type = some "websocket" ∧
    (MCPProtocolClient.disconnect
      { config := { name := "srv", endpoint := "ws://localhost:1" },
        is_connected := true, connection_type := some "websocket",
        websocket := true } true false).websocket = true :=
  ⟨rfl, rfl, rfl⟩

/-- Claim C3 (amended): `disconnect()` never raises (the whole body is wrapped
in a `try` whose handler only logs); when the underlying transport closes do
not raise, it always leaves the state fully reset (`is_connected = false`,
`connection_type = none`, both transport handles nulled) and calling it twice
produces the same end state as calling it once.  If a close raises, the
not-yet-executed resets are skipped and the state may remain partially
connected. -/
theorem disconnect_reset_idempotent_amended (c : MCPProtocolClient) :
    (c.disconnect false false).is_connected = false ∧
    (c.disconnect false false).connection_type = Option.none ∧
    (c.disconnect false false).websocket = false ∧
    (c.disconnect false false).session = false ∧
    (c.disconnect false false).disconnect false false = c.disconnect false false := by
  cases hw : c.websocket <;> cases hs : c.session <;>
    simp [MCPProtocolClient.disconnect, hw, hs]

/-! ## Claim C4 — ToolCall terminal-state exclusivity -/

/-- Claim C4 counterexample: a real call path — a connected client receiving
the JSON-RPC response `{"jsonrpc": "2.0", "result": null}` — produces via
`mark_success(None, …)` a ToolCall whose status is terminal (`success`) while
*neither* `result` nor `error` is populated, contradicting "in every terminal
state exactly one of result/error is non-empty". -/
theorem toolcall_success_null_counterexample :
    MCPProtocolClient.call_tool
      { config := { name := "weather-server", endpoint := "http://localhost:8001" },
        is_connected := true }
      (NetOutcome.reply [("jsonrpc", PyValue.str "2.0"), ("result", PyValue.none)] 1)
      (some "get_weather") [] =
      .ok { server_name := "weather-server", tool_name := "get_weather", parameters := [],
            result := PyValue.none, error := Option.none, execution_time := 1,
            status := "success" } ∧
    isTerminalStatus "success" = true ∧
    exactlyOnePresent
      { server_name := "weather-server", tool_name := "get_weather",
        parameters := [], result := PyValue.none, error := Option.none, execution_time := 1,
        status := "success" } = false :=
  ⟨rfl, rfl, rfl⟩

/-- Claim C4 (amended): for every ToolCall constructed by a call path (one
pydantic-validated construction followed by a single mark), the status is one
of the four defined values and is terminal after the mark; at most one of
`result`/`error` is populated; `mark_error` with a non-empty message and
`mark_timeout` populate `error` and clear `result`; `mark_success` clears
`error` and populates `result` unless the marked payload is itself `None`
(i.e. a `null` RPC result, in which case both are empty); and no mark ever
produces a non-terminal state, so a ToolCall never reverts to `pending`. -/
theorem toolcall_terminal_exclusivity_amended (s t : String) (p : List (String × PyValue))
    (m : MarkOp) (tc : MCPToolCall)
    (hs1 : pyStrip s = s) (hs2 : s ≠ "") (ht1 : pyStrip t = t) (ht2 : t ≠ "") :
    (∃ tc0, mkToolCallE (some s) (some t) p = .ok tc0 ∧
      statusValid (applyMark m tc0).status = true ∧
      isTerminalStatus (applyMark m tc0).status = true ∧
      (resultPresent (applyMark m tc0) = true → errorPresent (applyMark m tc0) = false) ∧
      (match m with
       | .success r _ => errorPresent (applyMark m tc0) = false ∧
           (r.isNone = false → resultPresent (applyMark m tc0) = true)
       | .error msg _ => resultPresent (applyMark m tc0) = false ∧
           (msg ≠ "" → errorPresent (applyMark m tc0) = true)
       | .timeout _ => resultPresent (applyMark m tc0) = false ∧
           errorPresent (applyMark m tc0) = true)) ∧
    isTerminalStatus (applyMark m tc).status = true := by
  constructor
  · refine ⟨{ server_name := s, tool_name := t, parameters := p }, ?_, ?_⟩
    · simp only [mkToolCallE]
      rw [hs1, ht1]
      simp [hs2, ht2]
    · cases m with
      | success r et =>
        refine ⟨rfl, rfl, ?_, rfl, ?_⟩
        · intro _
          rfl
        · intro hr
          simp [applyMark, markSuccess, resultPresent, hr]
      | error msg et =>
        refine ⟨rfl, rfl, ?_, rfl, ?_⟩
        · intro h
          simp [applyMark, markErrorCall, resultPresent, PyValue.isNone] at h
        · intro h
          simp [applyMark, markErrorCall, errorPresent, h]
      | timeout et =>
        refine ⟨rfl, rfl, ?_, rfl, rfl⟩
        intro h
        simp [applyMark, markTimeoutCall, resultPresent, PyValue.isNone] at h
  · cases m <;> rfl

/-- Witness for C4 (amended) at a concrete construction and mark. -/
theorem toolcall_terminal_exclusivity_witness :
    (∃ tc0, mkToolCallE (some "weather-server") (some "get_weather") [] = .ok tc0 ∧
      statusValid (applyMark (.success (.int 21) 2) tc0).status = true ∧
      isTerminalStatus (applyMark (.success (.int 21) 2) tc0).status = true ∧
      (resultPresent (applyMark (.success (.int 21) 2) tc0) = true →
        errorPresent (applyMark (.success (.int 21) 2) tc0) = false) ∧
      (errorPresent (applyMark (.success (.int 21) 2) tc0) = false ∧
        ((PyValue.int 21).isNone = false →
          resultPresent (applyMark (.success (.int 21) 2) tc0) = true))) ∧
    isTerminalStatus (applyMark (.success (.int 21) 2)
      { server_name := "a", tool_name := "b" }).status = true :=
  toolcall_terminal_exclusivity_amended "weather-server" "get_weather" []
    (.success (.int 21) 2) { server_name := "a", tool_name := "b" }
    (by decide) (by decide) (by decide) (by decide)

/-! ## Claim C7 — Configuration Store getters are shallow copies -/

/-- `derefConfig` after an in-place `enabled` mutation of the object behind
reference `r`. -/
theorem derefConfig_setEnabledRef (h : ConfigHeap) (r : Nat) (b : Bool) (cfg : MCPServerConfigV)
    (hc : derefConfig h r = some cfg) :
    derefConfig (setEnabledRef h r b) r = some { cfg with enabled := b } := by
  induction h with
  | nil => simp [derefConfig, alookup] at hc
  | cons p rest ih =>
    obtain ⟨pr, pc⟩ := p
    by_cases hp : pr = r
    · subst hp
      simp only [derefConfig, alookup, if_pos rfl] at hc
      cases hc
      simp [setEnabledRef, derefConfig, alookup]
    · simp only [derefConfig, alookup, if_neg hp] at hc
      simp only [setEnabledRef, if_neg hp, derefConfig, alookup]
      exact ih hc

/-- Claim C7 counterexample: a store holding one server `"a"` (enabled).
`get_all_servers` hands back the same object reference; flipping `enabled`
through that reference changes what the store itself observes — the store's
internal state is *not* left unchanged by mutation through the returned view. -/
theorem config_store_getter_mutation_counterexample :
    alookup (get_all_servers [("a", 0)]) "a" = some 0 ∧
    storeEnabled [(0, { name := "a", endpoint := "http://localhost:8001" })] [("a", 0)] "a" =
      some true ∧
    storeEnabled
      (setEnabledRef [(0, { name := "a", endpoint := "http://localhost:8001" })] 0 false)
      [("a", 0)] "a" = some false :=
  ⟨rfl, rfl, rfl⟩

/-- Claim C7 (amended): `get_all_servers()`/`get_enabled_servers()` return
*shallow* copies — `dict.copy()`/a dict comprehension: the returned mapping is
a fresh dict (so rebinding or deleting entries of the view cannot change the
store's own mapping), but it holds references to the very same
`MCPServerConfig` objects, so in-place mutation of an entry reachable through
the view (e.g. flipping its `enabled` flag) changes the store's observed
internal state. -/
theorem config_store_getters_shared_refs_amended (store : List (String × Nat))
    (h : ConfigHeap) (name : String) (r r2 : Nat) (b : Bool) (cfg : MCPServerConfigV)
    (hnd : (akeys store).Nodup)
    (hv : alookup store name = some r)
    (hc : derefConfig h r = some cfg)
    (he : alookup (get_enabled_servers h store) name = some r2) :
    alookup (get_all_servers store) name = some r ∧
    alookup store name = some r2 ∧
    storeEnabled (setEnabledRef h r b) store name = some b := by
  refine ⟨hv, ?_, ?_⟩
  · exact alookup_filter_some _ _ _ _ hnd he
  · unfold storeEnabled
    rw [hv]
    simp [derefConfig_setEnabledRef h r b cfg hc]

/-- Witness for C7 (amended) on a two-server store. -/
theorem config_store_getters_shared_refs_witness :
    alookup (get_all_servers [("a", 0), ("b", 1)]) "a" = some 0 ∧
    alookup [("a", (0 : Nat)), ("b", 1)] "a" = some 0 ∧
    storeEnabled
      (setEnabledRef
        [(0, { name := "a", endpoint := "http://localhost:8001" }),
         (1, { name := "b", endpoint := "http://localhost:8002", enabled := false })] 0 false)
      [("a", 0), ("b", 1)] "a" = some false :=
  config_store_getters_shared_refs_amended [("a", 0), ("b", 1)]
    [(0, { name := "a", endpoint := "http://localhost:8001" }),
     (1, { name := "b", endpoint := "http://localhost:8002", enabled := false })]
    "a" 0 0 false { name := "a", endpoint := "http://localhost:8001" }
    (by decide) rfl rfl rfl

/-! ## Claim C2 — duplicate server name in a configuration load -/

/-- Claim C2 counterexample: loading two entries both named `"x"` raises the
duplicate-name configuration error, but the store is left holding the first
`"x"` entry — one server, not zero: the load is not atomic. -/
theorem load_duplicate_counterexample :
    (validate_and_load_servers
      [{ name := some "x", endpoint := some "http://localhost:8001" },
       { name := some "x", endpoint := some "http://localhost:8002" }]).2.isSome = true ∧
    (validate_and_load_servers
      [{ name := some "x", endpoint := some "http://localhost:8001" },
       { name := some "x", endpoint := some "http://localhost:8002" }]).1 =
      [("x", { name := "x", endpoint := "http://localhost:8001" })] :=
  ⟨rfl, rfl⟩

/-- Stepping `loadServersLoop` over an already-valid, duplicate-free prefix. -/
theorem loadServersLoop_over_valid_entries (pre : List RawServerEntry) (cfgs : List MCPServerConfigV)
    (l : List RawServerEntry) (i : Nat) (acc : List (String × MCPServerConfigV))
    (hpre : mkServerConfigs pre = .ok cfgs)
    (hnd : (cfgs.map (fun c => c.name)).Nodup)
    (hdisj : ∀ c ∈ cfgs, c.name ∉ akeys acc) :
    loadServersLoop i (pre ++ l) acc =
      loadServersLoop (i + pre.length) l (acc ++ cfgs.map (fun c => (c.name, c))) := by
  induction pre generalizing i acc cfgs with
  | nil =>
    simp only [mkServerConfigs] at hpre
    cases hpre
    simp
  | cons e pre' ih =>
    simp only [mkServerConfigs] at hpre
    cases he : mkServerConfig e with
    | error m => rw [he] at hpre; cases hpre
    | ok c0 =>
      rw [he] at hpre
      cases hrest : mkServerConfigs pre' with
      | error m => rw [hrest] at hpre; cases hpre
      | ok cfgs' =>
        rw [hrest] at hpre
        simp only [Except.map] at hpre
        cases hpre
        simp only [List.map_cons, List.nodup_cons] at hnd
        have hc0 : c0.name ∉ akeys acc := hdisj c0 (List.mem_cons_self c0 cfgs')
        have hdisj2 : ∀ c ∈ cfgs', c.name ∉ akeys (acc ++ [(c0.name, c0)]) := by
          intro c hcmem
          simp only [akeys, List.map_append, List.mem_append]
          rintro (hin | hin)
          · exact hdisj c (List.mem_cons_of_mem c0 hcmem) hin
          · simp only [List.map_cons, List.map_nil, List.mem_singleton] at hin
            exact hnd.1 (hin ▸ List.mem_map_of_mem (fun c => c.name) hcmem)
        have h1 : i + 1 + pre'.length = i + (e :: pre').length := by
          simp only [List.length_cons]
          omega
        have h2 : (acc ++ [(c0.name, c0)]) ++ cfgs'.map (fun c => (c.name, c)) =
            acc ++ (c0 :: cfgs').map (fun c => (c.name, c)) := by
          simp only [List.map_cons, List.append_assoc, List.singleton_append]
        have hsplit : (e :: pre') ++ l = e :: (pre' ++ l) := rfl
        rw [hsplit]
        simp only [loadServersLoop, he]
        rw [if_neg hc0, ih cfgs' (i + 1) (acc ++ [(c0.name, c0)]) hrest hnd.2 hdisj2, h1, h2]

/-- Claim C2 (amended): a configuration whose `servers` array contains a
duplicate name raises a configuration error, but the load is *not* atomic: the
store is left holding exactly the entries validated before the duplicate (in
particular the first occurrence of the duplicated name), not zero servers. -/
theorem load_duplicate_partial_state_amended (pre : List RawServerEntry) (e : RawServerEntry)
    (rest : List RawServerEntry) (cfgs : List MCPServerConfigV) (cfg : MCPServerConfigV)
    (hpre : mkServerConfigs pre = .ok cfgs)
    (hnd : (cfgs.map (fun c => c.name)).Nodup)
    (he : mkServerConfig e = .ok cfg)
    (hdup : cfg.name ∈ cfgs.map (fun c => c.name)) :
    (validate_and_load_servers (pre ++ e :: rest)).2.isSome = true ∧
    (validate_and_load_servers (pre ++ e :: rest)).1 = cfgs.map (fun c => (c.name, c)) := by
  unfold validate_and_load_servers
  rw [loadServersLoop_over_valid_entries pre cfgs (e :: rest) 0 [] hpre hnd (by simp [akeys])]
  have hk : cfg.name ∈ akeys ([] ++ cfgs.map (fun c => (c.name, c))) := by
    simpa [akeys, List.map_map, Function.comp] using hdup
  simp only [loadServersLoop, he]
  rw [if_pos hk]
  simp

/-- Witness for C2 (amended): entries `x`, `x`. -/
theorem load_duplicate_partial_state_witness :
    (validate_and_load_servers
      ([{ name := some "x", endpoint := some "http://localhost:8001" }] ++
        { name := some ("x" : String), endpoint := some ("http://localhost:8002" : String),
          authentication := Option.none, available_tools := Option.none,
          enabled := Option.none, timeout := Option.none,
          max_retries := Option.none } :: [])).2.isSome = true ∧
    (validate_and_load_servers
      ([{ name := some "x", endpoint := some "http://localhost:8001" }] ++
        { name := some ("x" : String), endpoint := some ("http://localhost:8002" : String),
          authentication := Option.none, available_tools := Option.none,
          enabled := Option.none, timeout := Option.none,
          max_retries := Option.none } :: [])).1 =
      ([{ name := "x", endpoint := "http://localhost:8001" }] : List MCPServerConfigV).map
        (fun c => (c.name, c)) :=
  load_duplicate_partial_state_amended
    [{ name := some "x", endpoint := some "http://localhost:8001" }]
    { name := some "x", endpoint := some "http://localhost:8002" } []
    [{ name := "x", endpoint := "http://localhost:8001" }]
    { name := "x", endpoint := "http://localhost:8002" }
    rfl (by decide) rfl (by decide)

/-! ## Claim C9 — parameter synthesis defaults -/

/-- Lookup in the dict built by the property loop: each iteration writes only
its own property's key, so under duplicate-free keys the value found for
`name` is exactly what `name`'s own branch assigned. -/
theorem alookup_buildParams (message : String) (conv : Option ConversationV)
    (props : List (String × PropDef)) (name : String) (pd : PropDef) (v : PyValue)
    (hnd : (akeys props).Nodup) (hmem : (name, pd) ∈ props)
    (hass : branchAssign message conv name pd = some v) :
    alookup (buildParams message conv props) name = some v := by
  induction props with
  | nil => simp at hmem
  | cons p rest ih =>
    obtain ⟨n0, pd0⟩ := p
    simp only [akeys, List.map_cons, List.nodup_cons] at hnd
    rcases List.mem_cons.mp hmem with heq | hmem'
    · cases heq
      simp [buildParams, hass, alookup]
    · have hn : n0 ≠ name := by
        intro h
        subst h
        exact hnd.1 (List.mem_map_of_mem Prod.fst hmem')
      cases hb : branchAssign message conv n0 pd0 with
      | none =>
        simp only [buildParams, hb]
        exact ih hnd.2 hmem'
      | some v0 =>
        simp only [buildParams, hb, alookup, if_neg hn]
        exact ih hnd.2 hmem'

/-- When some branch assigned a value, the loop output is non-empty, so the
fall-back assignments of `_generate_tool_parameters` do not fire and the loop
output is returned as is. -/
theorem alookup_generate_of_branch (message : String) (conv : Option ConversationV)
    (tool : ToolDef) (props : List (String × PropDef)) (name : String) (pd : PropDef)
    (v : PyValue)
    (hprops : (tool.inputSchema.map (fun s => s.properties)).getD [] = props)
    (hnd : (akeys props).Nodup) (hmem : (name, pd) ∈ props)
    (hass : branchAssign message conv name pd = some v) :
    alookup (generate_tool_parameters message tool conv) name = some v := by
  have hlk := alookup_buildParams message conv props name pd v hnd hmem hass
  have hne : (buildParams message conv props).isEmpty = false := by
    cases hb : buildParams message conv props with
    | nil => rw [hb] at hlk; simp [alookup] at hlk
    | cons a l => simp
  unfold generate_tool_parameters
  rw [hprops]
  simp only [hne, Bool.false_eq_true, false_and, if_false]
  exact hlk

/-- Claim C9 counterexample: a schema with an enum-typed property named
`color` (plus a second plain property).  The claim says every enum-typed
property is assigned the enum's first value (`"red"`), but the enum default in
the code only fires for properties *named* `format`/`type`: the loop assigns
nothing at all. -/
theorem generate_parameters_enum_counterexample :
    generate_tool_parameters "hello there"
      { name := some "paint", inputSchema := some { properties :=
          [("color", { type := some "string",
                       enum := some [PyValue.str "red", PyValue.str "blue"] }),
           ("size", { type := some "string" })] } } Option.none = [] ∧
    alookup (generate_tool_parameters "hello there"
      { name := some "paint", inputSchema := some { properties :=
          [("color", { type := some "string",
                       enum := some [PyValue.str "red", PyValue.str "blue"] }),
           ("size", { type := some "string" })] } } Option.none) "color" ≠
      some (PyValue.str "red") :=
  ⟨rfl, fun h => Option.noConfusion h⟩

/-- Claim C9 (amended): in `generate_tool_parameters`, for every tool schema
with duplicate-free property names: a numeric (`integer`/`number`) property
named `limit`/`count`/`max` (case-insensitively) is assigned the default 5;
an enum-typed property is assigned the enum's first value only when it is
named `format` or `type` (case-insensitively) and its enum is non-empty; and a
numeric `days` property is assigned the extracted day count (explicit
digit+"day(s)" pattern, "tomorrow" yields 1, "week" yields 7) whenever the
extracted count is non-zero (Python truthiness: a zero count is not
assigned). -/
theorem generate_parameters_defaults_amended (message : String)
    (conversation : Option ConversationV) (tool : ToolDef)
    (props : List (String × PropDef)) (name : String) (pd : PropDef)
    (v : PyValue) (vs : List PyValue) (nd : Nat)
    (hprops : (tool.inputSchema.map (fun s => s.properties)).getD [] = props)
    (hnd : (akeys props).Nodup) (hmem : (name, pd) ∈ props) :
    ((pyLower name = "limit" ∨ pyLower name = "count" ∨ pyLower name = "max") →
      (pd.type.getD "string" = "integer" ∨ pd.type.getD "string" = "number") →
      alookup (generate_tool_parameters message tool conversation) name =
        some (PyValue.int 5)) ∧
    ((pyLower name = "format" ∨ pyLower name = "type") → pd.enum = some (v :: vs) →
      alookup (generate_tool_parameters message tool conversation) name = some v) ∧
    (pyLower name = "days" →
      (pd.type.getD "string" = "integer" ∨ pd.type.getD "string" = "number") →
      extract_days_from_message message = some nd → nd ≠ 0 →
      alookup (generate_tool_parameters message tool conversation) name =
        some (PyValue.int nd)) := by
  refine ⟨?_, ?_, ?_⟩
  · intro hname hty
    refine alookup_generate_of_branch message conversation tool props name pd _
      hprops hnd hmem ?_
    simp only [branchAssign]
    rcases hname with h | h | h <;> rw [h] <;> rcases hty with hty | hty <;> simp [hty]
  · intro hname henum
    refine alookup_generate_of_branch message conversation tool props name pd _
      hprops hnd hmem ?_
    simp only [branchAssign]
    rcases hname with h | h <;> rw [h] <;> simp [henum]
  · intro hname hty hdays hnz
    refine alookup_generate_of_branch message conversation tool props name pd _
      hprops hnd hmem ?_
    simp only [branchAssign]
    rw [hname]
    rcases hty with hty | hty <;> simp [hty, hdays, hnz]

/-- Witness for C9 (amended) on a concrete schema and message. -/
theorem generate_parameters_defaults_witness :
    ((pyLower "limit" = "limit" ∨ pyLower "limit" = "count" ∨ pyLower "limit" = "max") →
      ((some "integer").getD "string" = "integer" ∨
        (some "integer").getD "string" = "number") →
      alookup (generate_tool_parameters "show me 3 days"
        { name := some "forecast", inputSchema := some { properties :=
            [("limit", { type := some "integer" }), ("days", { type := some "integer" })] } }
        Option.none) "limit" = some (PyValue.int 5)) ∧
    ((pyLower "limit" = "format" ∨ pyLower "limit" = "type") →
      ({ type := some "integer" } : PropDef).enum = some (PyValue.str "x" :: []) →
      alookup (generate_tool_parameters "show me 3 days"
        { name := some "forecast", inputSchema := some { properties :=
            [("limit", { type := some "integer" }), ("days", { type := some "integer" })] } }
        Option.none) "limit" = some (PyValue.str "x")) ∧
    (pyLower "limit" = "days" →
      ((some "integer").getD "string" = "integer" ∨
        (some "integer").getD "string" = "number") →
      extract_days_from_message "show me 3 days" = some 3 → (3 : Nat) ≠ 0 →
      alookup (generate_tool_parameters "show me 3 days"
        { name := some "forecast", inputSchema := some { properties :=
            [("limit", { type := some "integer" }), ("days", { type := some "integer" })] } }
        Option.none) "limit" = some (PyValue.int 3)) :=
  generate_parameters_defaults_amended "show me 3 days" Option.none
    { name := some "forecast", inputSchema := some { properties :=
        [("limit", { type := some "integer" }), ("days", { type := some "integer" })] } }
    [("limit", { type := some "integer" }), ("days", { type := some "integer" })]
    "limit" { type := some "integer" } (PyValue.str "x") [] 3
    rfl (by decide) (List.mem_cons_self _ _)

/-! ## Claim C5 — parameter validation gate -/

theorem strHasSub_of_data (hay needle : String) (pre suf : List Char)
    (h : hay.data = pre ++ needle.data ++ suf) : strHasSub hay needle :=
  ⟨pre, suf, h.symm⟩

theorem strHasSub_append_left (pre hay needle : String) (h : strHasSub hay needle) :
    strHasSub (pre ++ hay) needle := by
  obtain ⟨a, b, hab⟩ := h
  refine ⟨pre.data ++ a, b, ?_⟩
  rw [String.data_append, ← hab]
  simp [List.append_assoc]

theorem firstMissingRequired_spec (required : List String) (params : List (String × PyValue))
    (r : String) (h : firstMissingRequired required params = some r) :
    r ∈ required ∧ r ∉ akeys params := by
  unfold firstMissingRequired at h
  have h1 := List.mem_of_find?_eq_some h
  have h2 := List.find?_some h
  simp only [decide_eq_true_eq] at h2
  exact ⟨h1, h2⟩

theorem firstMissingRequired_isSome (required : List String) (params : List (String × PyValue))
    (r : String) (hr : r ∈ required) (hnot : r ∉ akeys params) :
    (firstMissingRequired required params).isSome := by
  unfold firstMissingRequired
  rw [List.find?_isSome]
  exact ⟨r, hr, by simpa using hnot⟩

theorem firstTypeMismatch_spec (props : List (String × PropDef))
    (params : List (String × PyValue)) (n ty : String)
    (h : firstTypeMismatch props params = some (n, ty)) :
    ∃ w pd, (n, w) ∈ params ∧ alookup props n = some pd ∧ pd.type = some ty ∧
      ty ≠ "" ∧ validate_parameter_type w ty = false := by
  induction params with
  | nil => simp [firstTypeMismatch] at h
  | cons q rest ih =>
    obtain ⟨qn, qv⟩ := q
    simp only [firstTypeMismatch] at h
    cases hq : alookup props qn with
    | none =>
      simp only [hq] at h
      obtain ⟨w, pd, hmem, hrest⟩ := ih h
      exact ⟨w, pd, List.mem_cons_of_mem _ hmem, hrest⟩
    | some pd0 =>
      simp only [hq] at h
      cases hty0 : pd0.type with
      | none =>
        simp only [hty0] at h
        obtain ⟨w, pd, hmem, hrest⟩ := ih h
        exact ⟨w, pd, List.mem_cons_of_mem _ hmem, hrest⟩
      | some ty0 =>
        simp only [hty0] at h
        by_cases hcond : ty0 ≠ "" ∧ ¬ validate_parameter_type qv ty0
        · rw [if_pos hcond] at h
          cases h
          refine ⟨qv, pd0, List.mem_cons_self _ _, hq, hty0, hcond.1, ?_⟩
          simpa using hcond.2
        · rw [if_neg hcond] at h
          obtain ⟨w, pd, hmem, hrest⟩ := ih h
          exact ⟨w, pd, List.mem_cons_of_mem _ hmem, hrest⟩

theorem firstTypeMismatch_isSome (props : List (String × PropDef))
    (params : List (String × PyValue)) (n : String) (w : PyValue) (pd : PropDef)
    (ty : String) (hmem : (n, w) ∈ params) (hlk : alookup props n = some pd)
    (hty : pd.type = some ty) (htne : ty ≠ "")
    (hbad : validate_parameter_type w ty = false) :
    (firstTypeMismatch props params).isSome := by
  induction params with
  | nil => simp at hmem
  | cons q rest ih =>
    obtain ⟨qn, qv⟩ := q
    simp only [firstTypeMismatch]
    cases hq : alookup props qn with
    | none =>
      simp only [hq]
      rcases List.mem_cons.mp hmem with heq | hmem'
      · cases heq
        rw [hq] at hlk
        cases hlk
      · exact ih hmem'
    | some pd0 =>
      simp only [hq]
      cases hty0 : pd0.type with
      | none =>
        simp only [hty0]
        rcases List.mem_cons.mp hmem with heq | hmem'
        · cases heq
          rw [hq] at hlk
          cases hlk
          rw [hty0] at hty
          cases hty
        · exact ih hmem'
      | some ty0 =>
        simp only [hty0]
        by_cases hcond : ty0 ≠ "" ∧ ¬ validate_parameter_type qv ty0
        · rw [if_pos hcond]
          simp
        · rw [if_neg hcond]
          rcases List.mem_cons.mp hmem with heq | hmem'
          · cases heq
            rw [hq] at hlk
            cases hlk
            rw [hty0] at hty
            cases hty
            exact absurd ⟨htne, by simp [hbad]⟩ hcond
          · exact ih hmem'

/-- Claim C5: calling a known tool on a connected server whose cached schema
declares a required property missing from the supplied parameters (or a
supplied property whose value fails the declared basic type check, with
Python's `isinstance` semantics, under which a `bool` passes `integer` and
`number`) yields an immediate error-status ToolCall whose error message
contains the offending property name, and the Protocol Client is never invoked
(the network flag stays `false`). -/
theorem call_tool_validation_gate (mgr : MCPClientManager) (net : NetOutcome)
    (s t : String) (params : List (String × PyValue)) (c : MCPProtocolClient)
    (td : ToolDef) (schema : InputSchema)
    (hs1 : pyStrip s = s) (hs2 : s ≠ "") (ht1 : pyStrip t = t) (ht2 : t ≠ "")
    (hconn : s ∈ mgr.connected_servers)
    (hcli : alookup mgr.clients s = some c)
    (hfind : findToolDef (alookupD mgr.available_tools s []) (some t) = some td)
    (hschema : td.inputSchema = some schema)
    (hbad : (∃ r, r ∈ schema.required ∧ r ∉ akeys params) ∨
            (∃ n w pd ty, (n, w) ∈ params ∧ alookup schema.properties n = some pd ∧
              pd.type = some ty ∧ ty ≠ "" ∧ validate_parameter_type w ty = false)) :
    ∃ tc msg p, mgr.call_tool net (some s) (some t) params = (.ok tc, false) ∧
      tc.status = "error" ∧
      tc.error = some ("Parameter validation failed: " ++ msg) ∧
      strHasSub msg p ∧ strHasSub ("Parameter validation failed: " ++ msg) p ∧
      ((p ∈ schema.required ∧ p ∉ akeys params) ∨
       (∃ w pd ty, (p, w) ∈ params ∧ alookup schema.properties p = some pd ∧
         pd.type = some ty ∧ validate_parameter_type w ty = false)) := by
  have hval : ∃ msg p, validate_tool_parameters mgr (some s) (some t) params = some msg ∧
      strHasSub msg p ∧
      ((p ∈ schema.required ∧ p ∉ akeys params) ∨
       (∃ w pd ty, (p, w) ∈ params ∧ alookup schema.properties p = some pd ∧
         pd.type = some ty ∧ validate_parameter_type w ty = false)) := by
    cases hmr : firstMissingRequired schema.required params with
    | some r =>
      obtain ⟨hr, hnr⟩ := firstMissingRequired_spec _ _ _ hmr
      refine ⟨"Required parameter '" ++ r ++ "' is missing", r, ?_, ?_, Or.inl ⟨hr, hnr⟩⟩
      · simp only [validate_tool_parameters, hfind, hschema, hmr]
      · refine strHasSub_of_data _ _ "Required parameter '".data "' is missing".data ?_
        simp [String.data_append]
    | none =>
      have hmm : ∃ q, firstTypeMismatch schema.properties params = some q := by
        rcases hbad with ⟨r, hr, hnr⟩ | ⟨n, w, pd, ty, hmemp, hlk, hty, htne, hbadv⟩
        · have := firstMissingRequired_isSome schema.required params r hr hnr
          rw [hmr] at this
          simp at this
        · have := firstTypeMismatch_isSome schema.properties params n w pd ty
            hmemp hlk hty htne hbadv
          exact Option.isSome_iff_exists.mp this
      obtain ⟨⟨n, ty⟩, hq⟩ := hmm
      obtain ⟨w, pd, hmemp, hlk, hty, htne, hbadv⟩ := firstTypeMismatch_spec _ _ _ _ hq
      refine ⟨"Parameter '" ++ n ++ "' has invalid type. Expected: " ++ ty, n, ?_, ?_,
        Or.inr ⟨w, pd, ty, hmemp, hlk, hty, hbadv⟩⟩
      · simp only [validate_tool_parameters, hfind, hschema, hmr, hq]
      · refine strHasSub_of_data _ _ "Parameter '".data
          ("' has invalid type. Expected: ".data ++ ty.data) ?_
        simp [String.data_append]
  obtain ⟨msg, p, hv, hsub, hoff⟩ := hval
  have hmk : mkToolCallE (some s) (some t) params =
      .ok { server_name := s, tool_name := t, parameters := params } := by
    simp only [mkToolCallE]
    rw [hs1, ht1]
    simp [hs2, ht2]
  have hmem : optNameMem (some s) mgr.connected_servers = true := by
    simp [optNameMem, hconn]
  refine ⟨markErrorCall ("Parameter validation failed: " ++ msg) 0
    { server_name := s, tool_name := t, parameters := params }, msg, p, ?_, rfl, rfl, hsub,
    strHasSub_append_left _ _ _ hsub, hoff⟩
  simp only [MCPClientManager.call_tool, hmem, Bool.not_true, Bool.false_eq_true,
    if_false, hcli, hv, hmk, Except.map]
  simp

/-- Witness for C5 on a one-server manager: tool `t` requires `"x"`, the call
supplies no parameters. -/
theorem call_tool_validation_gate_witness :
    ∃ tc msg p,
      MCPClientManager.call_tool
        { config_servers := [],
          clients := [("srv", { config := { name := "srv", endpoint := "http://localhost:1" } })],
          connected_servers := ["srv"],
          available_tools := [("srv",
            [{ name := some "t", inputSchema := some
                { properties := [("x", { type := some "string" })], required := ["x"] } }])] }
        (NetOutcome.timeout 0) (some "srv") (some "t") [] = (.ok tc, false) ∧
      tc.status = "error" ∧
      tc.error = some ("Parameter validation failed: " ++ msg) ∧
      strHasSub msg p ∧ strHasSub ("Parameter validation failed: " ++ msg) p ∧
      ((p ∈ ({ properties := [("x", { type := some "string" })],
               required := ["x"] } : InputSchema).required ∧ p ∉ akeys ([] : List (String × PyValue))) ∨
       (∃ w pd ty, (p, w) ∈ ([] : List (String × PyValue)) ∧
         alookup ({ properties := [("x", { type := some "string" })],
                    required := ["x"] } : InputSchema).properties p = some pd ∧
         pd.type = some ty ∧ validate_parameter_type w ty = false)) :=
  call_tool_validation_gate
    { config_servers := [],
      clients := [("srv", { config := { name := "srv", endpoint := "http://localhost:1" } })],
      connected_servers := ["srv"],
      available_tools := [("srv",
        [{ name := some "t", inputSchema := some
            { properties := [("x", { type := some "string" })], required := ["x"] } }])] }
    (NetOutcome.timeout 0) "srv" "t" []
    { config := { name := "srv", endpoint := "http://localhost:1" } }
    { name := some "t", inputSchema := some
        { properties := [("x", { type := some "string" })], required := ["x"] } }
    { properties := [("x", { type := some "string" })], required := ["x"] }
    (by decide) (by decide) (by decide) (by decide) (by decide) rfl rfl rfl
    (Or.inl ⟨"x", by decide, by decide⟩)

/-! ## Claim C10 — schema-free tools skip validation; unknown tools error -/

theorem mkToolCallE_ok_fields (a b : String) (p : List (String × PyValue)) (tc : MCPToolCall)
    (h : mkToolCallE (some a) (some b) p = .ok tc) :
    tc.server_name = pyStrip a ∧ tc.tool_name = pyStrip b ∧ tc.parameters = p := by
  simp only [mkToolCallE] at h
  by_cases h1 : pyStrip a = ""
  · rw [if_pos h1] at h
    cases h
  · rw [if_neg h1] at h
    by_cases h2 : pyStrip b = ""
    · rw [if_pos h2] at h
      cases h
    · rw [if_neg h2] at h
      cases h
      exact ⟨rfl, rfl, rfl⟩

theorem applyMark_fields (m : MarkOp) (tc : MCPToolCall) :
    (applyMark m tc).parameters = tc.parameters ∧
    (applyMark m tc).tool_name = tc.tool_name ∧
    (applyMark m tc).server_name = tc.server_name := by
  cases m <;> exact ⟨rfl, rfl, rfl⟩

theorem mkToolCallE_ok_params (sn tn : Option String) (p : List (String × PyValue))
    (tc : MCPToolCall) (h : mkToolCallE sn tn p = .ok tc) : tc.parameters = p := by
  cases sn with
  | none => simp [mkToolCallE] at h
  | some a =>
    cases tn with
    | none => simp [mkToolCallE] at h
    | some b => exact (mkToolCallE_ok_fields a b p tc h).2.2

/-- Every outcome of `MCPProtocolClient.call_tool` is either the constructor
exception or a single mark applied to the freshly constructed call. -/
theorem client_call_tool_cases (c : MCPProtocolClient) (net : NetOutcome)
    (tn : Option String) (p : List (String × PyValue)) :
    (∃ e, c.call_tool net tn p = .error e) ∨
    (∃ tc0 m, mkToolCallE (some c.config.name) tn p = .ok tc0 ∧
      c.call_tool net tn p = .ok (applyMark m tc0)) := by
  cases hmk : mkToolCallE (some c.config.name) tn p with
  | error e =>
    refine Or.inl ⟨e, ?_⟩
    simp only [MCPProtocolClient.call_tool, hmk]
  | ok tc0 =>
    refine Or.inr ?_
    by_cases hcon : c.is_connected
    · cases net with
      | reply response elapsed =>
        by_cases htr : (alookupD response "error" PyValue.none).truthy
        · refine ⟨tc0, .error (alookupD response "error" PyValue.none).pyRepr elapsed, rfl, ?_⟩
          simp only [MCPProtocolClient.call_tool, hmk, applyMark]
          simp [hcon, htr]
        · refine ⟨tc0, .success (alookupD response "result" (PyValue.dict [])) elapsed,
            rfl, ?_⟩
          simp only [MCPProtocolClient.call_tool, hmk, applyMark]
          simp [hcon, htr]
      | timeout elapsed =>
        refine ⟨tc0, .timeout elapsed, rfl, ?_⟩
        simp only [MCPProtocolClient.call_tool, hmk, applyMark]
        simp [hcon]
      | exn m elapsed =>
        refine ⟨tc0, .error m elapsed, rfl, ?_⟩
        simp only [MCPProtocolClient.call_tool, hmk, applyMark]
        simp [hcon]
    · refine ⟨tc0, .error "Not connected to MCP server" 0, rfl, ?_⟩
      simp only [MCPProtocolClient.call_tool, hmk, applyMark]
      simp [hcon]

theorem client_call_tool_ok_params (c : MCPProtocolClient) (net : NetOutcome)
    (tn : Option String) (p : List (String × PyValue)) (tc : MCPToolCall)
    (h : c.call_tool net tn p = .ok tc) : tc.parameters = p := by
  rcases client_call_tool_cases c net tn p with ⟨e, he⟩ | ⟨tc0, m, hmk, hres⟩
  · rw [he] at h
    exact Except.noConfusion h
  · rw [hres] at h
    cases h
    rw [(applyMark_fields m tc0).1]
    exact mkToolCallE_ok_params _ _ _ _ hmk

theorem client_call_tool_ok_tool_name (c : MCPProtocolClient) (net : NetOutcome)
    (t : String) (p : List (String × PyValue)) (tc : MCPToolCall) (ht : pyStrip t = t)
    (h : c.call_tool net (some t) p = .ok tc) : tc.tool_name = t := by
  rcases client_call_tool_cases c net (some t) p with ⟨e, he⟩ | ⟨tc0, m, hmk, hres⟩
  · rw [he] at h
    exact Except.noConfusion h
  · rw [hres] at h
    cases h
    rw [(applyMark_fields m tc0).2.1,
      (mkToolCallE_ok_fields c.config.name t p tc0 hmk).2.1, ht]

/-- Claim C10: on a connected server with a live client, a tool found in the
manager's cached catalog but carrying no (or an empty, falsy) `inputSchema`
skips validation entirely — the call is delegated verbatim to the Protocol
Client with the supplied parameters unchanged; a tool name absent from the
cached catalog yields an immediate error-status ToolCall with no network
delegation. -/
theorem call_tool_schema_free_delegates (mgr : MCPClientManager) (net : NetOutcome)
    (s t : String) (params : List (String × PyValue)) (c : MCPProtocolClient)
    (td : ToolDef) (tc : MCPToolCall)
    (hs1 : pyStrip s = s) (hs2 : s ≠ "") (ht1 : pyStrip t = t) (ht2 : t ≠ "")
    (hconn : s ∈ mgr.connected_servers)
    (hcli : alookup mgr.clients s = some c) :
    (findToolDef (alookupD mgr.available_tools s []) (some t) = some td →
      td.inputSchema = Option.none →
      mgr.call_tool net (some s) (some t) params = (c.call_tool net (some t) params, true) ∧
      (c.call_tool net (some t) params = .ok tc → tc.parameters = params)) ∧
    (findToolDef (alookupD mgr.available_tools s []) (some t) = Option.none →
      ∃ tc2, mgr.call_tool net (some s) (some t) params = (.ok tc2, false) ∧
        tc2.status = "error") := by
  have hmem : optNameMem (some s) mgr.connected_servers = true := by
    simp [optNameMem, hconn]
  have hmk : mkToolCallE (some s) (some t) params =
      .ok { server_name := s, tool_name := t, parameters := params } := by
    simp only [mkToolCallE]
    rw [hs1, ht1]
    simp [hs2, ht2]
  constructor
  · intro hfind hschema
    have hval : validate_tool_parameters mgr (some s) (some t) params = Option.none := by
      simp only [validate_tool_parameters, hfind, hschema]
    refine ⟨?_, fun h => client_call_tool_ok_params c net (some t) params tc h⟩
    simp only [MCPClientManager.call_tool, hmem, Bool.not_true, Bool.false_eq_true,
      if_false, hcli, hval]
    simp
  · intro hfind
    have hval : validate_tool_parameters mgr (some s) (some t) params =
        some ("Tool '" ++ optNameRepr (some t) ++ "' not found on server '" ++
          optNameRepr (some s) ++ "'") := by
      simp only [validate_tool_parameters, hfind]
    refine ⟨markErrorCall ("Parameter validation failed: " ++
      ("Tool '" ++ optNameRepr (some t) ++ "' not found on server '" ++
        optNameRepr (some s) ++ "'")) 0
      { server_name := s, tool_name := t, parameters := params }, ?_, rfl⟩
    simp only [MCPClientManager.call_tool, hmem, Bool.not_true, Bool.false_eq_true,
      if_false, hcli, hval, hmk, Except.map]
    simp

/-- Witness for C10: server `srv` with a catalog holding a schema-free tool
`free`; `zzz` is not in the catalog. -/
theorem call_tool_schema_free_delegates_witness :
    (findToolDef (alookupD [("srv", [{ name := some "free" }])] "srv" []) (some "free") =
        some { name := some "free" } →
      ({ name := some "free" } : ToolDef).inputSchema = Option.none →
      MCPClientManager.call_tool
        { config_servers := [],
          clients := [("srv", { config := { name := "srv", endpoint := "http://localhost:1" } })],
          connected_servers := ["srv"],
          available_tools := [("srv", [{ name := some "free" }])] }
        (NetOutcome.timeout 0) (some "srv") (some "free") [("a", PyValue.int 1)] =
        (MCPProtocolClient.call_tool
          { config := { name := "srv", endpoint := "http://localhost:1" } }
          (NetOutcome.timeout 0) (some "free") [("a", PyValue.int 1)], true) ∧
      (MCPProtocolClient.call_tool
          { config := { name := "srv", endpoint := "http://localhost:1" } }
          (NetOutcome.timeout 0) (some "free") [("a", PyValue.int 1)] =
          .ok { server_name := "srv", tool_name := "free",
                parameters := [("a", PyValue.int 1)], result := PyValue.none,
                error := some "Not connected to MCP server", execution_time := 0,
                status := "error" } →
        ({ server_name := "srv", tool_name := "free",
           parameters := [("a", PyValue.int 1)], result := PyValue.none,
           error := some "Not connected to MCP server", execution_time := 0,
           status := "error" } : MCPToolCall).parameters = [("a", PyValue.int 1)])) ∧
    (findToolDef (alookupD [("srv", [{ name := some "free" }])] "srv" []) (some "free") =
        Option.none →
      ∃ tc2,
        MCPClientManager.call_tool
          { config_servers := [],
            clients := [("srv", { config := { name := "srv", endpoint := "http://localhost:1" } })],
            connected_servers := ["srv"],
            available_tools := [("srv", [{ name := some "free" }])] }
          (NetOutcome.timeout 0) (some "srv") (some "free") [("a", PyValue.int 1)] =
          (.ok tc2, false) ∧ tc2.status = "error") :=
  call_tool_schema_free_delegates
    { config_servers := [],
      clients := [("srv", { config := { name := "srv", endpoint := "http://localhost:1" } })],
      connected_servers := ["srv"],
      available_tools := [("srv", [{ name := some "free" }])] }
    (NetOutcome.timeout 0) "srv" "free" [("a", PyValue.int 1)]
    { config := { name := "srv", endpoint := "http://localhost:1" } }
    { name := some "free" }
    { server_name := "srv", tool_name := "free", parameters := [("a", PyValue.int 1)],
      result := PyValue.none, error := some "Not connected to MCP server",
      execution_time := 0, status := "error" }
    (by decide) (by decide) (by decide) (by decide) (by decide) rfl

/-! ## Claim C6 — connect partial-failure isolation -/

theorem connect_single_frame (mgr : MCPClientManager) (name : String) (out : ConnectOutcome)
    (n : String) (hne : n ≠ name) :
    (n ∈ (connect_single_server mgr name out).connected_servers ↔
      n ∈ mgr.connected_servers) ∧
    alookup (connect_single_server mgr name out).available_tools n =
      alookup mgr.available_tools n := by
  cases out with
  | ok tools =>
    constructor
    · simp only [connect_single_server]
      rw [mem_sinsert]
      simp [hne]
    · simp only [connect_single_server]
      exact alookup_aupdate_ne _ _ _ _ hne
  | failed => exact ⟨Iff.rfl, rfl⟩
  | raised => exact ⟨Iff.rfl, rfl⟩

theorem connect_single_adds (mgr : MCPClientManager) (name : String) (tools : List ToolDef) :
    name ∈ (connect_single_server mgr name (.ok tools)).connected_servers ∧
    alookup (connect_single_server mgr name (.ok tools)).available_tools name = some tools := by
  constructor
  · simp only [connect_single_server]
    rw [mem_sinsert]
    exact Or.inl rfl
  · simp only [connect_single_server]
    exact alookup_aupdate_self _ _ _

theorem connectLoop_frame (co : String → ConnectOutcome) (l : List (String × MCPServerConfigV))
    (mgr : MCPClientManager) (n : String) (hn : n ∉ akeys l) :
    (n ∈ (connectLoop co l mgr).connected_servers ↔ n ∈ mgr.connected_servers) ∧
    alookup (connectLoop co l mgr).available_tools n = alookup mgr.available_tools n := by
  induction l generalizing mgr with
  | nil => exact ⟨Iff.rfl, rfl⟩
  | cons p rest ih =>
    obtain ⟨name, cfg⟩ := p
    simp only [akeys, List.map_cons, List.mem_cons, not_or] at hn
    have hstep := connect_single_frame mgr name (co name) n hn.1
    have hrest := ih (connect_single_server mgr name (co name)) (by simpa [akeys] using hn.2)
    refine ⟨?_, ?_⟩
    · exact (hrest.1.trans hstep.1)
    · rw [show connectLoop co ((name, cfg) :: rest) mgr =
        connectLoop co rest (connect_single_server mgr name (co name)) from rfl]
      rw [hrest.2, hstep.2]

theorem connectLoop_spec (co : String → ConnectOutcome) (n : String)
    (cfg : MCPServerConfigV) (tools : List ToolDef) :
    ∀ (l : List (String × MCPServerConfigV)) (mgr : MCPClientManager),
    (akeys l).Nodup → (n, cfg) ∈ l →
    ((co n = .ok tools → n ∈ (connectLoop co l mgr).connected_servers ∧
        alookup (connectLoop co l mgr).available_tools n = some tools) ∧
     ((co n = .failed ∨ co n = .raised) → n ∉ mgr.connected_servers →
        n ∉ (connectLoop co l mgr).connected_servers)) := by
  intro l
  induction l with
  | nil =>
    intro mgr _ hmem
    simp at hmem
  | cons p rest ih =>
    intro mgr hnd hmem
    obtain ⟨name, cfg0⟩ := p
    simp only [akeys, List.map_cons, List.nodup_cons] at hnd
    rcases List.mem_cons.mp hmem with heq | hmem'
    · cases heq
      have hunfold : connectLoop co ((n, cfg) :: rest) mgr =
          connectLoop co rest (connect_single_server mgr n (co n)) := rfl
      constructor
      · intro hok
        rw [hunfold, hok]
        have hframe := connectLoop_frame co rest
          (connect_single_server mgr n (.ok tools)) n (by simpa [akeys] using hnd.1)
        have hadds := connect_single_adds mgr n tools
        exact ⟨hframe.1.mpr hadds.1, by rw [hframe.2, hadds.2]⟩
      · intro hfail hnot
        rw [hunfold]
        have hframe := connectLoop_frame co rest (connect_single_server mgr n (co n)) n
          (by simpa [akeys] using hnd.1)
        intro hcontra
        have hmem2 := hframe.1.mp hcontra
        rcases hfail with hf | hf <;> rw [hf] at hmem2 <;>
          exact hnot (by simpa [connect_single_server] using hmem2)
    · have hne : name ≠ n := by
        intro h
        subst h
        exact hnd.1 (List.mem_map_of_mem Prod.fst hmem')
      have hstep := connect_single_frame mgr name (co name) n (fun h => hne h.symm)
      have hrest := ih (connect_single_server mgr name (co name)) hnd.2 hmem'
      constructor
      · exact hrest.1
      · intro hfail hnot
        exact hrest.2 hfail (fun hmem3 => hnot (hstep.1.mp hmem3))

/-- Claim C6: for every set of enabled servers processed by
`connect_to_servers`, the outcome for one server does not influence whether
another ends up connected: an enabled, not-yet-clientized server whose
`connect()` returns `True` with discovered `tools` ends up in
`connected_servers` with its tools cached, whatever the other servers'
outcomes; one whose `connect()` returns `False` or raises simply stays out of
`connected_servers`. -/
theorem connect_partial_failure_isolation (mgr : MCPClientManager)
    (co : String → ConnectOutcome) (n : String) (cfg : MCPServerConfigV)
    (tools : List ToolDef)
    (hnd : (akeys mgr.config_servers).Nodup)
    (hmem : (n, cfg) ∈ mgr.config_servers) (hen : cfg.enabled = true)
    (hnew : alookup mgr.clients n = Option.none) :
    (co n = .ok tools →
      n ∈ (mgr.connect_to_servers co).connected_servers ∧
      alookup (mgr.connect_to_servers co).available_tools n = some tools) ∧
    ((co n = .failed ∨ co n = .raised) → n ∉ mgr.connected_servers →
      n ∉ (mgr.connect_to_servers co).connected_servers) := by
  have hmem2 : (n, cfg) ∈ (mgr.config_servers.filter (fun p => p.2.enabled)).filter
      (fun p => (alookup mgr.clients p.1).isNone) := by
    refine List.mem_filter.mpr ⟨List.mem_filter.mpr ⟨hmem, by simp [hen]⟩, by simp [hnew]⟩
  have hnd2 : (akeys ((mgr.config_servers.filter (fun p => p.2.enabled)).filter
      (fun p => (alookup mgr.clients p.1).isNone))).Nodup := by
    refine List.Nodup.sublist ?_ hnd
    exact List.Sublist.map _ ((List.filter_sublist _).trans (List.filter_sublist _))
  have hspec := connectLoop_spec co n cfg tools
    ((mgr.config_servers.filter (fun p => p.2.enabled)).filter
      (fun p => (alookup mgr.clients p.1).isNone))
    { mgr with clients := mgr.clients ++
        (((mgr.config_servers.filter (fun p => p.2.enabled)).filter
          (fun p => (alookup mgr.clients p.1).isNone)).map (fun p => (p.1, freshClient p.2))) }
    hnd2 hmem2
  exact hspec

/-- Witness for C6: two enabled servers, `a` raising and `b` connecting. -/
theorem connect_partial_failure_isolation_witness :
    ((fun name => if name = "b" then ConnectOutcome.ok [] else ConnectOutcome.raised) "b" =
        .ok [] →
      "b" ∈ (MCPClientManager.connect_to_servers
        { config_servers := [("a", { name := "a", endpoint := "http://localhost:1" }),
                             ("b", { name := "b", endpoint := "http://localhost:2" })] }
        (fun name => if name = "b" then ConnectOutcome.ok [] else
          ConnectOutcome.raised)).connected_servers ∧
      alookup (MCPClientManager.connect_to_servers
        { config_servers := [("a", { name := "a", endpoint := "http://localhost:1" }),
                             ("b", { name := "b", endpoint := "http://localhost:2" })] }
        (fun name => if name = "b" then ConnectOutcome.ok [] else
          ConnectOutcome.raised)).available_tools "b" = some []) ∧
    (((fun name => if name = "b" then ConnectOutcome.ok [] else ConnectOutcome.raised) "b" =
        .failed ∨
      (fun name => if name = "b" then ConnectOutcome.ok [] else ConnectOutcome.raised) "b" =
        .raised) →
      "b" ∉ ({ config_servers := [("a", { name := "a", endpoint := "http://localhost:1" }),
                                  ("b", { name := "b", endpoint := "http://localhost:2" })] } :
        MCPClientManager).connected_servers →
      "b" ∉ (MCPClientManager.connect_to_servers
        { config_servers := [("a", { name := "a", endpoint := "http://localhost:1" }),
                             ("b", { name := "b", endpoint := "http://localhost:2" })] }
        (fun name => if name = "b" then ConnectOutcome.ok [] else
          ConnectOutcome.raised)).connected_servers) :=
  connect_partial_failure_isolation
    { config_servers := [("a", { name := "a", endpoint := "http://localhost:1" }),
                         ("b", { name := "b", endpoint := "http://localhost:2" })] }
    (fun name => if name = "b" then ConnectOutcome.ok [] else ConnectOutcome.raised)
    "b" { name := "b", endpoint := "http://localhost:2" } []
    (by decide)
    (List.mem_cons_of_mem _ (List.mem_cons_self _ _))
    rfl rfl

/-! ## Claim C8 — aggregate-state invariant of the orchestrator -/

theorem aggInv_connect_single (mgr : MCPClientManager) (name : String) (out : ConnectOutcome)
    (h : aggInv mgr) : aggInv (connect_single_server mgr name out) := by
  cases out with
  | ok tools =>
    intro x
    simp only [connect_single_server]
    rw [mem_sinsert, mem_akeys_aupdate]
    exact or_congr Iff.rfl (h x)
  | failed => exact h
  | raised => exact h

theorem aggInv_connectLoop (co : String → ConnectOutcome)
    (l : List (String × MCPServerConfigV)) :
    ∀ mgr : MCPClientManager, aggInv mgr → aggInv (connectLoop co l mgr) := by
  induction l with
  | nil => exact fun mgr h => h
  | cons p rest ih =>
    intro mgr h
    obtain ⟨name, cfg⟩ := p
    exact ih _ (aggInv_connect_single mgr name (co name) h)

theorem aggInv_health_single (mgr : MCPClientManager) (name : String) (ho : HealthOutcome)
    (h : aggInv mgr) : aggInv (health_check_single_server mgr name ho) := by
  cases ho with
  | unhealthy =>
    intro x
    simp only [health_check_single_server]
    rw [mem_sdiscard, mem_akeys_aerase]
    exact and_congr (h x) Iff.rfl
  | healthy => exact h
  | raised => exact h

/-- Claim C8: every orchestration-level operation — parallel connect, full
disconnect, per-server reconnect, the health-check sweep and a tool refresh —
preserves the aggregate-state invariant that the names in `connected_servers`
and the keys of `available_tools` coincide: the two are always added and
removed together. -/
theorem orchestrator_aggregate_invariant (mgr : MCPClientManager)
    (co : String → ConnectOutcome) (ho : String → HealthOutcome)
    (name1 name2 : String) (rc : ConnectOutcome) (lt : ListToolsOutcome)
    (hinv : aggInv mgr) :
    aggInv (mgr.connect_to_servers co) ∧
    aggInv mgr.disconnect_from_servers ∧
    aggInv (mgr.reconnect_server name1 rc).1 ∧
    aggInv (mgr.health_check_servers ho) ∧
    aggInv (mgr.refresh_server_tools name2 lt).1 := by
  refine ⟨?_, ?_, ?_, ?_, ?_⟩
  · exact aggInv_connectLoop co _ _ hinv
  · intro x
    simp [MCPClientManager.disconnect_from_servers, akeys]
  · simp only [MCPClientManager.reconnect_server]
    split
    · exact hinv
    · split
      · by_cases hc : name1 ∈ mgr.connected_servers
        · intro x
          simp only [if_pos hc]
          rw [mem_sinsert, mem_akeys_aupdate, mem_sdiscard, mem_akeys_aerase]
          exact or_congr Iff.rfl (and_congr (hinv x) Iff.rfl)
        · intro x
          simp only [if_neg hc]
          rw [mem_sinsert, mem_akeys_aupdate]
          exact or_congr Iff.rfl (hinv x)
      · by_cases hc : name1 ∈ mgr.connected_servers
        · intro x
          simp only [if_pos hc]
          rw [mem_sdiscard, mem_akeys_aerase]
          exact and_congr (hinv x) Iff.rfl
        · simp only [if_neg hc]
          exact hinv
      · by_cases hc : name1 ∈ mgr.connected_servers
        · intro x
          simp only [if_pos hc]
          rw [mem_sdiscard, mem_akeys_aerase]
          exact and_congr (hinv x) Iff.rfl
        · simp only [if_neg hc]
          exact hinv
  · unfold MCPClientManager.health_check_servers
    have hfold : ∀ (names : List String) (m : MCPClientManager), aggInv m →
        aggInv (names.foldl (fun m n => health_check_single_server m n (ho n)) m) := by
      intro names
      induction names with
      | nil => exact fun m hm => hm
      | cons a rest ih =>
        intro m hm
        exact ih _ (aggInv_health_single m a (ho a) hm)
    exact hfold _ _ hinv
  · simp only [MCPClientManager.refresh_server_tools]
    by_cases hc : name2 ∉ mgr.connected_servers
    · rw [if_pos hc]
      exact hinv
    · rw [if_neg hc]
      split
      · exact hinv
      · split
        · intro x
          rw [mem_akeys_aupdate]
          constructor
          · intro hx
            exact Or.inr ((hinv x).mp hx)
          · rintro (rfl | hx)
            · exact not_not.mp hc
            · exact (hinv x).mpr hx
        · exact hinv

/-- Witness for C8 at a concrete manager state and concrete oracles. -/
theorem orchestrator_aggregate_invariant_witness :
    aggInv (MCPClientManager.connect_to_servers
      { config_servers := [("a", { name := "a", endpoint := "http://localhost:1" })],
        connected_servers := ["a"], available_tools := [("a", [])] }
      (fun _ => ConnectOutcome.failed)) ∧
    aggInv (MCPClientManager.disconnect_from_servers
      { config_servers := [("a", { name := "a", endpoint := "http://localhost:1" })],
        connected_servers := ["a"], available_tools := [("a", [])] }) ∧
    aggInv (MCPClientManager.reconnect_server
      { config_servers := [("a", { name := "a", endpoint := "http://localhost:1" })],
        connected_servers := ["a"], available_tools := [("a", [])] }
      "a" ConnectOutcome.failed).1 ∧
    aggInv (MCPClientManager.health_check_servers
      { config_servers := [("a", { name := "a", endpoint := "http://localhost:1" })],
        connected_servers := ["a"], available_tools := [("a", [])] }
      (fun _ => HealthOutcome.unhealthy)) ∧
    aggInv (MCPClientManager.refresh_server_tools
      { config_servers := [("a", { name := "a", endpoint := "http://localhost:1" })],
        connected_servers := ["a"], available_tools := [("a", [])] }
      "a" (ListToolsOutcome.raised "boom")).1 :=
  orchestrator_aggregate_invariant
    { config_servers := [("a", { name := "a", endpoint := "http://localhost:1" })],
      connected_servers := ["a"], available_tools := [("a", [])] }
    (fun _ => ConnectOutcome.failed) (fun _ => HealthOutcome.unhealthy)
    "a" "a" ConnectOutcome.failed (ListToolsOutcome.raised "boom")
    (by intro x; simp [akeys])

/-! ## Claim C1 — parallel batch call: order and length preservation -/

theorem mkToolCallE_none_tool (o : Option String) (p : List (String × PyValue)) :
    mkToolCallE o Option.none p = .error "Input should be a valid string" := by
  cases o <;> rfl

theorem map_markError_ok_tool_name (sn : Option String) (t : String)
    (p : List (String × PyValue)) (msg : String) (et : Rat) (tc : MCPToolCall)
    (ht : pyStrip t = t)
    (h : (mkToolCallE sn (some t) p).map (markErrorCall msg et) = .ok tc) :
    tc.tool_name = t := by
  cases hmk : mkToolCallE sn (some t) p with
  | error e =>
    rw [hmk] at h
    exact Except.noConfusion h
  | ok tc0 =>
    rw [hmk] at h
    cases h
    have hfield : tc0.tool_name = pyStrip t := by
      cases sn with
      | none => simp [mkToolCallE] at hmk
      | some a => exact (mkToolCallE_ok_fields a t p tc0 hmk).2.1
    rw [show (markErrorCall msg et tc0).tool_name = tc0.tool_name from rfl, hfield, ht]

theorem mgr_call_tool_ok_tool_name (mgr : MCPClientManager) (net : NetOutcome)
    (sn : Option String) (t : String) (p : List (String × PyValue)) (tc : MCPToolCall)
    (ht : pyStrip t = t)
    (h : (mgr.call_tool net sn (some t) p).1 = .ok tc) : tc.tool_name = t := by
  simp only [MCPClientManager.call_tool] at h
  split at h
  · exact map_markError_ok_tool_name _ _ _ _ _ _ ht h
  · split at h
    · exact map_markError_ok_tool_name _ _ _ _ _ _ ht h
    · split at h
      · exact map_markError_ok_tool_name _ _ _ _ _ _ ht h
      · exact client_call_tool_ok_tool_name _ _ _ _ _ ht h

theorem mgr_call_tool_none_tool_error (mgr : MCPClientManager) (net : NetOutcome)
    (sn : Option String) (p : List (String × PyValue)) :
    ∃ e, (mgr.call_tool net sn Option.none p).1 = .error e := by
  simp only [MCPClientManager.call_tool]
  split
  · refine ⟨"Input should be a valid string", ?_⟩
    rw [mkToolCallE_none_tool]
    rfl
  · split
    · refine ⟨"Input should be a valid string", ?_⟩
      rw [mkToolCallE_none_tool]
      rfl
    · split
      · refine ⟨"Input should be a valid string", ?_⟩
        rw [mkToolCallE_none_tool]
        rfl
      · exact ⟨"Input should be a valid string",
          by simp only [MCPProtocolClient.call_tool, mkToolCallE_none_tool]⟩

theorem call_tools_parallel_eq (mgr : MCPClientManager) (net : Nat → NetOutcome)
    (l : List CallSpec) :
    mgr.call_tools_parallel net l = convertResults (runTasks mgr net l) := by
  cases l with
  | nil => rfl
  | cons a r => rfl

/-- Claim C1 counterexample: a single spec whose `tool_name` key is present
but holds the empty string.  The dispatched `call_tool` raises a pydantic
`ValidationError` (blank `tool_name`); the exception-conversion loop then
rebuilds an `MCPToolCall` from `call_spec.get('tool_name', 'unknown')` — the
same blank string — and raises *again*, uncaught, so the whole batch call
raises instead of returning a list of length 1. -/
theorem call_tools_parallel_blank_name_counterexample :
    MCPClientManager.call_tools_parallel {} (fun _ => NetOutcome.timeout 0)
      [{ server_name := some "s", tool_name := some "" }] =
      .error "server_name and tool_name cannot be empty" :=
  rfl

/-- Claim C1 (amended): for every list of N tool-call specs whose name keys,
when present, hold non-blank already-stripped strings, the parallel batch call
returns a list of exactly length N; the result at index i carries the input
spec i's `tool_name` (`'unknown'` when that key is absent); every task that
returned a terminal ToolCall appears unchanged at its index, and every task
that raised is converted to an error-status ToolCall at its original index
with message `Tool call failed: …`.  (A spec whose name key is present but
blank makes the whole batch call raise instead — see the counterexample.) -/
theorem call_tools_parallel_order_amended (mgr : MCPClientManager)
    (net : Nat → NetOutcome) (specs : List CallSpec)
    (hok : ∀ sp ∈ specs, nameFieldOk sp.server_name ∧ nameFieldOk sp.tool_name) :
    ∃ l, mgr.call_tools_parallel net specs = .ok l ∧
      l.length = specs.length ∧
      List.Forall₂ (fun (tc : MCPToolCall) (sp : CallSpec) =>
        tc.tool_name = sp.tool_name.getD "unknown") l specs ∧
      List.Forall₂ (fun (task : CallSpec × Except String MCPToolCall) (tc : MCPToolCall) =>
        (∀ e, task.2 = .error e → tc.status = "error" ∧
          tc.error = some ("Tool call failed: " ++ e)) ∧
        (∀ tc0, task.2 = .ok tc0 → tc = tc0)) (runTasks mgr net specs) l := by
  rw [call_tools_parallel_eq]
  induction specs generalizing net with
  | nil => exact ⟨[], rfl, rfl, .nil, .nil⟩
  | cons sp rest ih =>
    have hsp := hok sp (List.mem_cons_self _ _)
    obtain ⟨lrest, hconv, hlen, hf1, hf2⟩ :=
      ih (fun i => net (i + 1)) (fun sp' h => hok sp' (List.mem_cons_of_mem _ h))
    cases hr0 : (mgr.call_tool (net 0) sp.server_name sp.tool_name sp.parameters).1 with
    | ok tc =>
      have htn : tc.tool_name = sp.tool_name.getD "unknown" := by
        cases hto : sp.tool_name with
        | none =>
          obtain ⟨e, he⟩ := mgr_call_tool_none_tool_error mgr (net 0) sp.server_name
            sp.parameters
          rw [hto] at hr0
          rw [he] at hr0
          exact Except.noConfusion hr0
        | some t =>
          rw [hto] at hr0
          exact mgr_call_tool_ok_tool_name mgr (net 0) sp.server_name t sp.parameters tc
            ((hsp.2 t hto).1) hr0
      refine ⟨tc :: lrest, ?_, by simp [hlen], .cons htn hf1, .cons ⟨?_, ?_⟩ hf2⟩
      · show convertResults ((sp,
          (mgr.call_tool (net 0) sp.server_name sp.tool_name sp.parameters).1) ::
          runTasks mgr (fun i => net (i + 1)) rest) = _
        rw [hr0]
        show (convertResults (runTasks mgr (fun i => net (i + 1)) rest)).map (tc :: ·) = _
        rw [hconv]
        rfl
      · intro e he
        rw [hr0] at he
        exact Except.noConfusion he
      · intro tc0 h0
        rw [hr0] at h0
        exact Except.ok.inj h0
    | error e =>
      have ha : pyStrip (sp.server_name.getD "unknown") = sp.server_name.getD "unknown" ∧
          sp.server_name.getD "unknown" ≠ "" := by
        cases hso : sp.server_name with
        | none => exact ⟨by decide, by decide⟩
        | some s => exact hsp.1 s hso
      have hb : pyStrip (sp.tool_name.getD "unknown") = sp.tool_name.getD "unknown" ∧
          sp.tool_name.getD "unknown" ≠ "" := by
        cases hto : sp.tool_name with
        | none => exact ⟨by decide, by decide⟩
        | some t => exact hsp.2 t hto
      have hmkc : mkToolCallE (some (sp.server_name.getD "unknown"))
          (some (sp.tool_name.getD "unknown")) sp.parameters =
          .ok { server_name := sp.server_name.getD "unknown",
                tool_name := sp.tool_name.getD "unknown",
                parameters := sp.parameters } := by
        simp only [mkToolCallE]
        rw [ha.1, hb.1]
        simp [ha.2, hb.2]
      refine ⟨markErrorCall ("Tool call failed: " ++ e) 0
        { server_name := sp.server_name.getD "unknown",
          tool_name := sp.tool_name.getD "unknown",
          parameters := sp.parameters } :: lrest, ?_, by simp [hlen],
        .cons rfl hf1, .cons ⟨?_, ?_⟩ hf2⟩
      · show convertResults ((sp,
          (mgr.call_tool (net 0) sp.server_name sp.tool_name sp.parameters).1) ::
          runTasks mgr (fun i => net (i + 1)) rest) = _
        rw [hr0]
        show (match mkToolCallE (some (sp.server_name.getD "unknown"))
            (some (sp.tool_name.getD "unknown")) sp.parameters with
          | .ok tc0 => (convertResults (runTasks mgr (fun i => net (i + 1)) rest)).map
              (markErrorCall ("Tool call failed: " ++ e) 0 tc0 :: ·)
          | .error e2 => .error e2) = _
        rw [hmkc, hconv]
        rfl
      · intro e' he'
        rw [hr0] at he'
        cases he'
        exact ⟨rfl, rfl⟩
      · intro tc0 h0
        rw [hr0] at h0
        exact Except.noConfusion h0

/-- Witness for C1 (amended): one well-named spec on an empty manager and one
spec with no name keys at all (whose dispatch raises and is converted in
place). -/
theorem call_tools_parallel_order_witness :
    ∃ l, MCPClientManager.call_tools_parallel {} (fun _ => NetOutcome.timeout 0)
        [{ server_name := some "s", tool_name := some "t" }, {}] = .ok l ∧
      l.length = ([{ server_name := some "s", tool_name := some "t" }, {}] :
        List CallSpec).length ∧
      List.Forall₂ (fun (tc : MCPToolCall) (sp : CallSpec) =>
        tc.tool_name = sp.tool_name.getD "unknown") l
        [{ server_name := some "s", tool_name := some "t" }, {}] ∧
      List.Forall₂ (fun (task : CallSpec × Except String MCPToolCall) (tc : MCPToolCall) =>
        (∀ e, task.2 = .error e → tc.status = "error" ∧
          tc.error = some ("Tool call failed: " ++ e)) ∧
        (∀ tc0, task.2 = .ok tc0 → tc = tc0))
        (runTasks {} (fun _ => NetOutcome.timeout 0)
          [{ server_name := some "s", tool_name := some "t" }, {}]) l :=
  call_tools_parallel_order_amended {} (fun _ => NetOutcome.timeout 0)
    [{ server_name := some "s", tool_name := some "t" }, {}]
    (by
      intro sp hsp
      rcases List.mem_cons.mp hsp with rfl | hsp2
      · constructor
        · intro s hs
          cases hs
          exact ⟨by decide, by decide⟩
        · intro t hter
          cases hter
          exact ⟨by decide, by decide⟩
      · rcases List.mem_cons.mp hsp2 with rfl | hsp3
        · constructor
          · intro s hs
            cases hs
          · intro t hter
            cases hter
        · simp at hsp3)

/-- Witness for C3 (amended) on a concrete connected client. -/
theorem disconnect_reset_idempotent_witness :
    (MCPProtocolClient.disconnect
      { config := { name := "srv", endpoint := "http://localhost:1" },
        is_connected := true, connection_type := some "http", session := true }
      false false).is_connected = false ∧
    (MCPProtocolClient.disconnect
      { config := { name := "srv", endpoint := "http://localhost:1" },
        is_connected := true, connection_type := some "http", session := true }
      false false).connection_type = Option.none ∧
    (MCPProtocolClient.disconnect
      { config := { name := "srv", endpoint := "http://localhost:1" },
        is_connected := true, connection_type := some "http", session := true }
      false false).websocket = false ∧
    (MCPProtocolClient.disconnect
      { config := { name := "srv", endpoint := "http://localhost:1" },
        is_connected := true, connection_type := some "http", session := true }
      false false).session = false ∧
    (MCPProtocolClient.disconnect
      { config := { name := "srv", endpoint := "http://localhost:1" },
        is_connected := true, connection_type := some "http", session := true }
      false false).disconnect false false =
      MCPProtocolClient.disconnect
        { config := { name := "srv", endpoint := "http://localhost:1" },
          is_connected := true, connection_type := some "http", session := true }
        false false :=
  disconnect_reset_idempotent_amended
    { config := { name := "srv", endpoint := "http://localhost:1" },
      is_connected := true, connection_type := some "http", session := true }
